import Mathlib

set_option maxRecDepth 8000

/-!
Verification of the coordination core of the a2a-code-review-system repository.

The Python sources under src/ are shallowly embedded below:

* Python dicts (with insertion-order iteration) are modelled as association
  lists with `dictGet` / `dictSet`.
* Python sets are modelled as duplicate-free lists; where the source iterates
  a set, the model fixes first-occurrence order (the theorems below never
  depend on that order).
* Python ints are `Int` (or `Nat` for values that are provably non-negative
  counts), Python floats are abstracted as `Rat`.
* Python stable list sorting (Timsort with a key function) is modelled as
  `List.insertionSort` on the key order, which is stable in the same sense.
* Fallible code is modelled with `Option` / `Except`.
-/

namespace A2A

/-- Lookup in a Python dict modelled as an association list. -/
def dictGet {α : Type} : List (String × α) → String → Option α
  | [], _ => none
  | (k, v) :: rest, key => if k = key then some v else dictGet rest key

/-- Update or insert in a Python dict: existing keys keep their position,
new keys are appended, matching insertion-order semantics. -/
def dictSet {α : Type} : List (String × α) → String → α → List (String × α)
  | [], key, v => [(key, v)]
  | (k, w) :: rest, key, v =>
    if k = key then (key, v) :: rest else (k, w) :: dictSet rest key v

/-- Membership test for the duplicate-free-list model of a Python set. -/
def setAdd (l : List String) (x : String) : List String :=
  if x ∈ l then l else l ++ [x]

/-- Model of iterating a Python set built from a list: duplicates removed,
first occurrence kept.  CPython iterates sets in an unspecified order; the
model fixes first-occurrence order and no theorem depends on it. -/
def pyDedup : List String → List String
  | [] => []
  | x :: xs => if x ∈ xs then pyDedup xs else x :: pyDedup xs

/-- Model of Python str.join with a separator. -/
def joinSep (sep : String) : List String → String
  | [] => ""
  | [x] => x
  | x :: xs => x ++ sep ++ joinSep sep xs

/-- Key-based comparison used to model Python `list.sort(key=...)`. -/
def keyLE {α : Type} {κ : Type} [LinearOrder κ] (key : α → κ) (a b : α) : Prop :=
  key a ≤ key b

/-- Key-based comparison used to model Python `list.sort(key=..., reverse=True)`. -/
def keyGE {α : Type} {κ : Type} [LinearOrder κ] (key : α → κ) (a b : α) : Prop :=
  key b ≤ key a

instance {α κ : Type} [LinearOrder κ] (key : α → κ) : DecidableRel (keyLE key) :=
  fun a b => inferInstanceAs (Decidable (key a ≤ key b))

instance {α κ : Type} [LinearOrder κ] (key : α → κ) : DecidableRel (keyGE key) :=
  fun a b => inferInstanceAs (Decidable (key b ≤ key a))

instance {α κ : Type} [LinearOrder κ] (key : α → κ) : IsTotal α (keyLE key) :=
  ⟨fun a b => le_total (key a) (key b)⟩

instance {α κ : Type} [LinearOrder κ] (key : α → κ) : IsTrans α (keyLE key) :=
  ⟨fun _ _ _ h h2 => le_trans h h2⟩

instance {α κ : Type} [LinearOrder κ] (key : α → κ) : IsTotal α (keyGE key) :=
  ⟨fun a b => le_total (key b) (key a)⟩

instance {α κ : Type} [LinearOrder κ] (key : α → κ) : IsTrans α (keyGE key) :=
  ⟨fun _ _ _ h h2 => le_trans h2 h⟩

/-- Stable ascending sort by key, modelling `l.sort(key=key)`. -/
def pySortByKey {α κ : Type} [LinearOrder κ] (key : α → κ) (l : List α) : List α :=
  l.insertionSort (keyLE key)

/-- Stable descending sort by key, modelling `l.sort(key=key, reverse=True)`. -/
def pySortByKeyRev {α κ : Type} [LinearOrder κ] (key : α → κ) (l : List α) : List α :=
  l.insertionSort (keyGE key)

theorem pySortByKey_perm {α κ : Type} [LinearOrder κ] (key : α → κ) (l : List α) :
    List.Perm (pySortByKey key l) l :=
  List.perm_insertionSort _ l

theorem pySortByKey_sorted {α κ : Type} [LinearOrder κ] (key : α → κ) (l : List α) :
    (pySortByKey key l).Sorted (keyLE key) :=
  List.sorted_insertionSort _ l

theorem pySortByKeyRev_perm {α κ : Type} [LinearOrder κ] (key : α → κ) (l : List α) :
    List.Perm (pySortByKeyRev key l) l :=
  List.perm_insertionSort _ l

theorem pySortByKeyRev_sorted {α κ : Type} [LinearOrder κ] (key : α → κ) (l : List α) :
    (pySortByKeyRev key l).Sorted (keyGE key) :=
  List.sorted_insertionSort _ l

/-! ## Data model (src/a2a_protocol/message_schema.py) -/

/-- TaskStatus enumeration from message_schema.py. -/
inductive TaskStatus : Type
  | pending | running | completed | failed | cancelled
  deriving DecidableEq, Repr

/-- AgentCapability from message_schema.py.  The parameter schema is a
name-to-type mapping; only its size is ever read (for scoring). -/
structure AgentCapability : Type where
  name : String
  description : String
  parameters : List (String × String)
  deriving DecidableEq, Repr

/-- AgentInfo from message_schema.py. -/
structure AgentInfo : Type where
  agent_id : String
  name : String
  version : String
  capabilities : List AgentCapability
  endpoint : String
  status : String
  health_check_endpoint : Option String
  deriving DecidableEq, Repr

/-- Dynamic value used for fields that Python leaves untyped (a suggestion
priority may be an int or a string).  The order between an int and a string
is an arbitrary modelling choice: the embedding only sorts lists whose
priorities are homogeneous, mirroring the TypeError CPython raises on a
mixed comparison. -/
inductive PVal : Type
  | int (n : Int)
  | str (s : String)
  deriving DecidableEq, Repr

/-- Model of one observation dict.  Workers populate type, message, severity
and sometimes line_number; the aggregator adds count and sources when it
merges a group. -/
structure Obs : Type where
  type_ : Option String := none
  line_number : Option Int := none
  message : Option String := none
  severity : Option String := none
  agent_id : Option String := none
  count : Option Nat := none
  sources : Option (List String) := none
  deriving DecidableEq, Repr

/-- Model of one error dict. -/
structure Err : Type where
  type_ : Option String := none
  line_number : Option Int := none
  message : Option String := none
  severity : Option String := none
  deriving DecidableEq, Repr

/-- Model of one suggestion dict. -/
structure Sug : Type where
  type_ : Option String := none
  message : Option String := none
  priority : Option PVal := none
  impact : Option String := none
  deriving DecidableEq, Repr

/-- AnalysisResult from message_schema.py. -/
structure AnalysisResult : Type where
  agent_id : String
  task_id : String
  status : TaskStatus
  observations : List Obs := []
  errors : List Err := []
  suggestions : List Sug := []
  corrected_code : Option String := none
  metadata : List (String × String) := []
  deriving DecidableEq, Repr

/-! ## Capability matcher (src/registry/capability_matcher.py) -/

/-- State of a CapabilityMatcher: the agents dict and the capability index
(capability name to the set of agent ids holding it). -/
structure CapabilityMatcher : Type where
  agents : List (String × AgentInfo) := []
  capability_index : List (String × List String) := []
  deriving DecidableEq, Repr

/-- Set of worker ids holding a capability name (defaultdict lookup). -/
def CapabilityMatcher.idxGet (m : CapabilityMatcher) (c : String) : List String :=
  (dictGet m.capability_index c).getD []

/-- CapabilityMatcher.add_agent: store the descriptor and index each declared
capability.  Note that a pre-existing entry for the same id is overwritten in
the agents dict but its old index entries are NOT removed. -/
def CapabilityMatcher.add_agent (m : CapabilityMatcher) (info : AgentInfo) : CapabilityMatcher :=
  let agents := dictSet m.agents info.agent_id info
  let idx := info.capabilities.foldl
    (fun idx cap => dictSet idx cap.name (setAdd ((dictGet idx cap.name).getD []) info.agent_id))
    m.capability_index
  { agents := agents, capability_index := idx }

/-- CapabilityMatcher.find_agents_by_capabilities: intersect the index sets of
all requested names, then look the surviving ids up in the agents dict.
The source intersects Python sets; the model filters the first set, which
preserves its order (the theorems never depend on iteration order). -/
def CapabilityMatcher.find_agents_by_capabilities
    (m : CapabilityMatcher) (capability_names : List String) : List AgentInfo :=
  match capability_names with
  | [] => []
  | c0 :: rest =>
    let ids := rest.foldl (fun acc c => acc.filter (fun id => id ∈ m.idxGet c)) (m.idxGet c0)
    ids.filterMap (fun id => dictGet m.agents id)

/-- Capability-name set of an agent (a Python set comprehension). -/
def capNames (a : AgentInfo) : List String :=
  pyDedup (a.capabilities.map (fun c => c.name))

/-- CapabilityMatcher._calculate_agent_score.  AgentInfo has no priority
attribute, so the hasattr branch of the source never fires and is omitted. -/
def calculateAgentScore (a : AgentInfo) (required_capabilities : List String) : Rat :=
  let names := capNames a
  let matching : Rat := ((pyDedup required_capabilities).filter (fun c => c ∈ names)).length
  let additional : Rat := (names.filter (fun c => c ∉ required_capabilities)).length
  let statusBonus : Rat :=
    if a.status = "active" then 5 else if a.status = "maintenance" then 1 else 0
  let paramBonus : Rat :=
    (a.capabilities.map (fun c => (c.parameters.length : Rat) * (1 / 10))).sum
  matching * 10 + additional * 2 + statusBonus + paramBonus

/-- CapabilityMatcher.find_best_agent: None on an empty requirement list or
when no candidate holds every required capability; otherwise the candidate
with the strictly highest score seen first. -/
def CapabilityMatcher.find_best_agent
    (m : CapabilityMatcher) (required_capabilities : List String) : Option AgentInfo :=
  if required_capabilities = [] then none
  else
    let candidates := m.find_agents_by_capabilities required_capabilities
    (candidates.foldl
      (fun (p : Option AgentInfo × Rat) a =>
        let s := calculateAgentScore a required_capabilities
        if s > p.2 then (some a, s) else p)
      (none, -1)).1

/-- Consistency of a matcher state: every id the index lists for a capability
name actually declares that capability in its stored descriptor.  Fresh
registrations preserve this; re-registering an id with a smaller capability
set breaks it (stale index entries survive add_agent). -/
def CapabilityMatcher.consistent (m : CapabilityMatcher) : Bool :=
  m.capability_index.all fun p =>
    p.2.all fun id =>
      match dictGet m.agents id with
      | none => true
      | some info => info.capabilities.any (fun c => c.name = p.1)

/-! ## Agent registry (src/registry/agent_registry.py) -/

/-- Runtime-state record the registry keeps per agent id (the agent_status
dict).  Timestamps are opaque strings supplied by the caller of the model. -/
structure AgentStatusRec : Type where
  status : String
  last_health_check : Option String
  health_status : String
  active_tasks : Int
  total_tasks : Int
  last_seen : String
  response_time : Option Rat
  deriving DecidableEq, Repr

/-- Fresh runtime state written by register_agent. -/
def freshStatus (info : AgentInfo) (now : String) : AgentStatusRec :=
  { status := info.status
    last_health_check := none
    health_status := "unknown"
    active_tasks := 0
    total_tasks := 0
    last_seen := now
    response_time := none }

/-- State of an AgentRegistry: its own agents dict, the runtime-state dict,
and the owned CapabilityMatcher. -/
structure RegistryState : Type where
  agents : List (String × AgentInfo) := []
  agent_status : List (String × AgentStatusRec) := []
  matcher : CapabilityMatcher := {}
  deriving DecidableEq, Repr

/-- AgentRegistry.register_agent: stores the descriptor, unconditionally
re-initialises the runtime state, and indexes the capabilities.  Returns
True (the except branch of the source is unreachable for well-typed input). -/
def registerAgent (st : RegistryState) (info : AgentInfo) (now : String) :
    Bool × RegistryState :=
  (true,
    { agents := dictSet st.agents info.agent_id info
      agent_status := dictSet st.agent_status info.agent_id (freshStatus info now)
      matcher := st.matcher.add_agent info })

/-- AgentRegistry.increment_task_count. -/
def incrementTaskCount (st : RegistryState) (agent_id : String) : RegistryState :=
  match dictGet st.agent_status agent_id with
  | none => st
  | some rs =>
    let rs2 := { rs with active_tasks := rs.active_tasks + 1, total_tasks := rs.total_tasks + 1 }
    { st with agent_status := dictSet st.agent_status agent_id rs2 }

/-- AgentRegistry.decrement_task_count (floored at 0). -/
def decrementTaskCount (st : RegistryState) (agent_id : String) : RegistryState :=
  match dictGet st.agent_status agent_id with
  | none => st
  | some rs =>
    let rs2 := { rs with active_tasks := max 0 (rs.active_tasks - 1) }
    { st with agent_status := dictSet st.agent_status agent_id rs2 }

/-- AgentRegistry.find_best_agent delegates to the capability matcher. -/
def RegistryState.find_best_agent (st : RegistryState) (req : List String) : Option AgentInfo :=
  st.matcher.find_best_agent req

/-- Outcome of one HTTP health probe: none models a raised transport
exception, some (is200, latency) a response. -/
def HealthProbe : Type := String → Option (Bool × Rat)

/-- AgentRegistry.check_agent_health: False without a state change when the
agent or its health endpoint is missing; otherwise records the probe outcome
into the runtime state (unhealthy with no latency on an exception) and
returns whether the response was HTTP 200.  All errors are swallowed. -/
def checkAgentHealth (st : RegistryState) (probe : HealthProbe) (now : String)
    (agent_id : String) : Bool × RegistryState :=
  match dictGet st.agents agent_id with
  | none => (false, st)
  | some info =>
    match info.health_check_endpoint with
    | none => (false, st)
    | some ep =>
      match dictGet st.agent_status agent_id with
      | none =>
        (match probe ep with
         | some (is200, _) => (is200, st)
         | none => (false, st))
      | some rs =>
        match probe ep with
        | some (is200, rt) =>
          let rs2 := { rs with last_health_check := some now
                               health_status := if is200 then "healthy" else "unhealthy"
                               response_time := some rt
                               last_seen := now }
          (is200, { st with agent_status := dictSet st.agent_status agent_id rs2 })
        | none =>
          let rs2 := { rs with last_health_check := some now
                               health_status := "unhealthy"
                               response_time := none }
          (false, { st with agent_status := dictSet st.agent_status agent_id rs2 })

/-! ## Task distributor (src/agents/coordinator/task_distributor.py) -/

/-- One row of the fixed analysis catalog. -/
structure AspectConfig : Type where
  capabilities : List String := []
  priority : Int := 1
  deriving DecidableEq, Repr

/-- TaskDistributor._distribute_single_task: best agent, health gate,
capacity gate (AgentInfo declares no max_concurrent_tasks attribute, so the
getattr default of 5 always applies), then a task id derived from the
analysis type and the current timestamp, and an increment of the task count.
Every failure returns None for this entry. -/
def distributeSingleTask (st : RegistryState) (probe : HealthProbe) (now : String)
    (analysis_type : String) (cfg : AspectConfig) : Option String × RegistryState :=
  match st.find_best_agent cfg.capabilities with
  | none => (none, st)
  | some best =>
    let hs := checkAgentHealth st probe now best.agent_id
    if hs.1 = false then (none, hs.2)
    else
      let active := ((dictGet hs.2.agent_status best.agent_id).map
        (fun rs => rs.active_tasks)).getD 0
      if 5 ≤ active then (none, hs.2)
      else
        (some (analysis_type ++ "_" ++ now), incrementTaskCount hs.2 best.agent_id)

/-- Loop body of distribute_analysis_tasks: a successful entry is appended
to the result map, a failed one is only logged. -/
def distStep (probe : HealthProbe) (now : String)
    (acc : List (String × String) × RegistryState) (e : String × AspectConfig) :
    List (String × String) × RegistryState :=
  match distributeSingleTask acc.2 probe now e.1 e.2 with
  | (some tid, st2) => (acc.1 ++ [(e.1, tid)], st2)
  | (none, st2) => (acc.1, st2)

/-- TaskDistributor.distribute_analysis_tasks: attempts each catalog entry in
order, collecting the task ids of the successful ones; a failed entry is
skipped and does not affect the rest. -/
def distributeAnalysisTasks (st : RegistryState) (probe : HealthProbe) (now : String)
    (analysis_config : List (String × AspectConfig)) :
    List (String × String) × RegistryState :=
  analysis_config.foldl (distStep probe now) ([], st)

/-! ## Result aggregator (src/agents/coordinator/result_aggregator.py) -/

/-- ASCII model of Python str.lower applied to one character.  The severity
strings of this system are ASCII, so the Unicode cases of str.lower never
arise. -/
def lowerChar (c : Char) : Char :=
  if 65 ≤ c.toNat ∧ c.toNat ≤ 90 then Char.ofNat (c.toNat + 32) else c

/-- ASCII model of Python str.lower. -/
def pyLower (s : String) : String := ⟨s.data.map lowerChar⟩

/-- ResultAggregator._get_severity_priority. -/
def sevPrio (s : String) : Nat :=
  match pyLower s with
  | "critical" => 1
  | "error" => 2
  | "warning" => 3
  | "info" => 4
  | "debug" => 5
  | _ => 4

/-- Inverse severity map used by _get_highest_severity. -/
def priorityName (p : Nat) : String :=
  match p with
  | 1 => "critical"
  | 2 => "error"
  | 3 => "warning"
  | 4 => "info"
  | 5 => "debug"
  | _ => "info"

/-- ResultAggregator._get_highest_severity: the severity whose priority is
the minimum over the members ("info" for an empty list). -/
def getHighestSeverity (severities : List String) : String :=
  match severities.map sevPrio with
  | [] => "info"
  | p :: ps => priorityName (ps.foldl min p)

/-- Grouping key used by _aggregate_observations (an f-string). -/
def obsKey (o : Obs) : String :=
  (o.type_.getD "unknown") ++ "_" ++
    (match o.line_number with
     | some n => toString n
     | none => "unknown")

/-- Append x to the group of key k, creating the group at the end when new
(defaultdict insertion-order semantics). -/
def addToGroup {α : Type} : List (String × List α) → String → α → List (String × List α)
  | [], k, x => [(k, [x])]
  | (k0, xs) :: rest, k, x =>
    if k0 = k then (k0, xs ++ [x]) :: rest else (k0, xs) :: addToGroup rest k x

/-- Group a list by a string key, keeping first-occurrence key order and the
input order inside each group. -/
def groupByKey {α : Type} (key : α → String) (l : List α) : List (String × List α) :=
  l.foldl (fun gs x => addToGroup gs (key x) x) []

/-- ResultAggregator._merge_similar_observations: the first member is the
base; the message becomes the deduplicated non-empty member messages joined
by a pipe separator, the severity the most severe member severity, and
count and sources are added (sources reads the agent_id field each member
observation itself carries, defaulting to "unknown"). -/
def mergeSimilarObservations (observations : List Obs) : Obs :=
  match observations with
  | [] => {}
  | [o] => o
  | o :: _ =>
    let messages := (observations.map (fun x => x.message.getD "")).filter (fun m => m ≠ "")
    let base := if messages ≠ []
      then { o with message := some (joinSep " | " (pyDedup messages)) }
      else o
    { base with
      severity := some (getHighestSeverity (observations.map (fun x => x.severity.getD "info")))
      count := some observations.length
      sources := some (observations.map (fun x => x.agent_id.getD "unknown")) }

/-- Sort key of _aggregate_observations: severity priority, then line. -/
def obsSortKey (o : Obs) : Lex (Nat × Int) :=
  toLex (sevPrio (o.severity.getD "info"), o.line_number.getD 0)

/-- ResultAggregator._aggregate_observations. -/
def aggregateObservations (observations : List Obs) : List Obs :=
  let groups := groupByKey obsKey observations
  let aggregated := groups.map (fun g =>
    match g.2 with
    | [x] => x
    | l => mergeSimilarObservations l)
  pySortByKey obsSortKey aggregated

/-- Deduplication key of _aggregate_errors: type, line, first 100 message
characters. -/
def errDedupKey (e : Err) : String × Int × String :=
  (e.type_.getD "", e.line_number.getD 0, (e.message.getD "").take 100)

/-- Keep the first occurrence of every key, in input order (the seen-set
loop of _aggregate_errors). -/
def dedupFirstBy {α κ : Type} [DecidableEq κ] (key : α → κ) : List κ → List α → List α
  | _, [] => []
  | seen, e :: es =>
    if key e ∈ seen then dedupFirstBy key seen es
    else e :: dedupFirstBy key (key e :: seen) es

/-- Sort key of _aggregate_errors: severity priority (default error), line. -/
def errSortKey (e : Err) : Lex (Nat × Int) :=
  toLex (sevPrio (e.severity.getD "error"), e.line_number.getD 0)

/-- ResultAggregator._aggregate_errors: deduplicate keeping first
occurrences, then sort by severity priority and line number. -/
def aggregateErrors (errors : List Err) : List Err :=
  pySortByKey errSortKey (dedupFirstBy errDedupKey [] errors)

/-- Priority value of a suggestion: x.get with an int default of 5. -/
def sugPrioVal (s : Sug) : PVal :=
  s.priority.getD (PVal.int 5)

/-- Shape test used to model which priority lists CPython can compare. -/
def PVal.isInt : PVal → Bool
  | .int _ => true
  | .str _ => false

/-- CPython raises TypeError exactly when a sort has to compare an int key
with a str key, i.e. when the list mixes the two shapes; a homogeneous list
sorts fine.  This predicate captures the observable success condition. -/
def prioComparable (l : List Sug) : Bool :=
  (l.all fun s => (sugPrioVal s).isInt) || (l.all fun s => !(sugPrioVal s).isInt)

/-- Linear-order key for a homogeneous priority list.  The relative order of
an int key and a str key is never exercised on inputs where the sort
succeeds. -/
def PVal.lexKey : PVal → Lex (Int ⊕ String)
  | .int n => toLex (Sum.inl n)
  | .str s => toLex (Sum.inr s)

/-- ResultAggregator._aggregate_suggestions: group by type, rank each group
by descending priority keeping the top 3, then re-sort the union by
descending priority.  The try handler returns the input list when any
comparison raises. -/
def aggregateSuggestions (suggestions : List Sug) : List Sug :=
  let groups := groupByKey (fun s => s.type_.getD "general") suggestions
  if groups.all (fun g => prioComparable g.2) then
    let ranked := groups.foldl
      (fun acc g => acc ++ (pySortByKeyRev (fun s => (sugPrioVal s).lexKey) g.2).take 3) []
    if prioComparable ranked then pySortByKeyRev (fun s => (sugPrioVal s).lexKey) ranked
    else suggestions
  else suggestions

/-- Raw severity of an error for the counting buckets (no lowercasing). -/
def errSevRaw (e : Err) : String := e.severity.getD "error"

/-- Raw severity of an observation for the counting buckets. -/
def obsSevRaw (o : Obs) : String := o.severity.getD "info"

/-- Increment one bucket of a defaultdict(int). -/
def bumpCount (counts : List (String × Nat)) (k : String) : List (String × Nat) :=
  dictSet counts k ((dictGet counts k).getD 0 + 1)

/-- Count elements by a string key into a defaultdict(int). -/
def buildCounts {α : Type} (keyOf : α → String) (l : List α) : List (String × Nat) :=
  l.foldl (fun counts x => bumpCount counts (keyOf x)) []

/-- Summary statistics dict of _calculate_summary_stats. -/
structure SummaryStats : Type where
  total_observations : Nat
  total_errors : Nat
  total_suggestions : Nat
  error_counts : List (String × Nat)
  observation_counts : List (String × Nat)
  critical_issues : Nat
  quality_score : Int
  deriving DecidableEq, Repr

/-- ResultAggregator._calculate_summary_stats. -/
def calculateSummaryStats (observations : List Obs) (errors : List Err)
    (suggestions : List Sug) : SummaryStats :=
  let error_counts := buildCounts errSevRaw errors
  let observation_counts := buildCounts obsSevRaw observations
  let total_issues : Int := errors.length + observations.length
  let critical_issues : Nat :=
    (dictGet error_counts "critical").getD 0 + (dictGet observation_counts "critical").getD 0
  let quality_score : Int := max 0 (100 - total_issues * 2 - (critical_issues : Int) * 10)
  { total_observations := observations.length
    total_errors := errors.length
    total_suggestions := suggestions.length
    error_counts := error_counts
    observation_counts := observation_counts
    critical_issues := critical_issues
    quality_score := min 100 (max 0 quality_score) }

/-- The errors entry of a report: a flat list before orchestration, split
into critical and non-critical by the orchestration engine. -/
inductive ErrField : Type
  | flat (l : List Err)
  | split (critical : List Err) (non_critical : List Err)
  deriving DecidableEq, Repr

/-- critical_error_summary added by the orchestration engine. -/
structure CriticalSummary : Type where
  count : Nat
  types : List String
  requires_immediate_attention : Bool
  deriving DecidableEq, Repr

/-- quality_scores dict added by the orchestration engine.  Fields carry a
score suffix where the Python key would collide with a Lean keyword. -/
structure QualityScores : Type where
  overall : Rat
  syntax_score : Rat
  security : Rat
  performance : Rat
  documentation : Rat
  test_coverage : Rat
  total_issues : Nat
  critical_issues : Nat
  deriving DecidableEq, Repr

/-- One recommendation dict. -/
structure Recommendation : Type where
  type_ : String
  priority : String
  message : String
  action : String
  deriving DecidableEq, Repr

/-- orchestration metadata stamp. -/
structure OrchStamp : Type where
  analysis_id : String
  execution_strategy : String
  processed_at : String
  rules_applied : List String
  deriving DecidableEq, Repr

/-- The aggregated-report dict: produced by aggregate_results, augmented in
place by the orchestration engine (optional fields become some). -/
structure Report : Type where
  timestamp : String := ""
  total_agents : Nat := 0
  successful_agents : Nat := 0
  observations : List Obs := []
  errors : ErrField := .flat []
  suggestions : List Sug := []
  corrected_code : Option String := none
  summary : Option SummaryStats := none
  agent_metadata : List (String × List (String × String)) := []
  critical_error_summary : Option CriticalSummary := none
  quality_scores : Option QualityScores := none
  recommendations : Option (List Recommendation) := none
  orchestration : Option OrchStamp := none
  deriving DecidableEq, Repr

/-- ResultAggregator._generate_corrected_code: the first truthy
corrected_code over all results in iteration order (an empty string is
falsy and skipped). -/
def firstCorrectedCode : List (Option String) → Option String
  | [] => none
  | some s :: rest => if s = "" then firstCorrectedCode rest else some s
  | none :: rest => firstCorrectedCode rest

/-- ResultAggregator._create_empty_result. -/
def emptyResult (now : String) : Report :=
  { timestamp := now
    summary := some
      { total_observations := 0
        total_errors := 0
        total_suggestions := 0
        error_counts := []
        observation_counts := []
        critical_issues := 0
        quality_score := 0 } }

/-- ResultAggregator.aggregate_results: collect the collections of the
completed results, aggregate each, pick a corrected code, and compute the
summary.  Every helper catches its own errors, so the outer handler of the
source (which would produce _create_error_result) is unreachable in the
typed model. -/
def aggregateResults (results : List (String × AnalysisResult)) (now : String) : Report :=
  if results = [] then emptyResult now
  else
    let completed := results.filter (fun p => p.2.status = TaskStatus.completed)
    let all_observations := (completed.map (fun p => p.2.observations)).flatten
    let all_errors := (completed.map (fun p => p.2.errors)).flatten
    let all_suggestions := (completed.map (fun p => p.2.suggestions)).flatten
    let agent_metadata := completed.foldl (fun md p => dictSet md p.1 p.2.metadata) []
    let aggObs := aggregateObservations all_observations
    let aggErrs := aggregateErrors all_errors
    let aggSugs := aggregateSuggestions all_suggestions
    { timestamp := now
      total_agents := results.length
      successful_agents := completed.length
      observations := aggObs
      errors := .flat aggErrs
      suggestions := aggSugs
      corrected_code := firstCorrectedCode (results.map (fun p => p.2.corrected_code))
      summary := some (calculateSummaryStats aggObs aggErrs aggSugs)
      agent_metadata := agent_metadata }

/-! ## Orchestration engine (src/agents/coordinator/orchestration_engine.py) -/

/-- Union of the critical_errors lists of _define_result_processing_rules,
in rule-table order. -/
def criticalErrorTypes : List String :=
  ["syntax_error", "indentation_error",
   "sql_injection", "xss_vulnerability", "hardcoded_secret",
   "memory_leak", "infinite_loop"]

/-- Keys of the rule table, stamped as rules_applied. -/
def rulesAppliedList : List String :=
  ["syntax_check", "security_scan", "performance_analysis",
   "documentation_check", "test_coverage"]

/-- OrchestrationEngine._get_error_priority. -/
def getErrorPriority (t : String) : Nat :=
  match t with
  | "syntax_error" => 1
  | "indentation_error" => 1
  | "sql_injection" => 2
  | "xss_vulnerability" => 2
  | "hardcoded_secret" => 2
  | "memory_leak" => 3
  | "infinite_loop" => 3
  | "performance_bottleneck" => 4
  | "missing_docstring" => 5
  | "poor_naming" => 5
  | "missing_test" => 6
  | _ => 10

/-- OrchestrationEngine._handle_critical_errors: partitions a flat error
list by membership of the type in the critical table and records the
summary.  When the errors entry is already the split dict, iterating it
yields its string keys and the attribute access raises at once; the inner
handler returns the report unchanged. -/
def handleCriticalErrors (r : Report) : Report :=
  match r.errors with
  | .split _ _ => r
  | .flat errors =>
    let critical := errors.filter (fun e => (e.type_.getD "") ∈ criticalErrorTypes)
    let non_critical := errors.filter (fun e => (e.type_.getD "") ∉ criticalErrorTypes)
    { r with
      errors := .split critical non_critical
      critical_error_summary := some
        { count := critical.length
          types := pyDedup (critical.map (fun e => e.type_.getD ""))
          requires_immediate_attention := decide (critical.length > 0) } }

/-- Error sort key of _prioritize_results: type priority, then line. -/
def errPrioKey (e : Err) : Lex (Nat × Int) :=
  toLex (getErrorPriority (e.type_.getD ""), e.line_number.getD 0)

/-- Suggestion sort key of _prioritize_results: priority, then impact. -/
def sugFullKey (s : Sug) : Lex (Lex (Int ⊕ String) × String) :=
  toLex ((sugPrioVal s).lexKey, s.impact.getD "low")

/-- The in-place suggestion sort of _prioritize_results, which raises
TypeError (modelled as error) exactly when the priority list mixes int and
str shapes. -/
def sortSuggestionsDesc (l : List Sug) : Except Unit (List Sug) :=
  if prioComparable l then .ok (pySortByKeyRev sugFullKey l) else .error ()

/-- OrchestrationEngine._prioritize_results: normalises a still-flat errors
entry into the split dict with every error in the critical bucket, sorts
both buckets, then sorts the suggestions; when the suggestion sort raises,
the inner handler returns the report with the error buckets already sorted
and the suggestions untouched. -/
def prioritizeResults (r : Report) : Report :=
  let buckets := match r.errors with
    | .flat es => (es, ([] : List Err))
    | .split c n => (c, n)
  let r1 := { r with errors := .split (pySortByKey errPrioKey buckets.1)
                                      (pySortByKey errPrioKey buckets.2) }
  match sortSuggestionsDesc r.suggestions with
  | .ok ss => { r1 with suggestions := ss }
  | .error _ => r1

/-- Flat view of the errors entry used by the component score helpers. -/
def ErrField.allErrors : ErrField → List Err
  | .flat es => es
  | .split c n => c ++ n

/-- OrchestrationEngine._calculate_syntax_score. -/
def calculateSyntaxScore (errs : ErrField) : Rat :=
  let hits := errs.allErrors.filter
    (fun e => (e.type_.getD "") ∈ ["syntax_error", "indentation_error"])
  max 0 (100 - hits.length * 20)

/-- OrchestrationEngine._calculate_security_score. -/
def calculateSecurityScore (errs : ErrField) : Rat :=
  let hits := errs.allErrors.filter
    (fun e => (e.type_.getD "") ∈ ["sql_injection", "xss_vulnerability", "hardcoded_secret"])
  max 0 (100 - hits.length * 30)

/-- OrchestrationEngine._calculate_performance_score. -/
def calculatePerformanceScore (observations : List Obs) : Rat :=
  let hits := observations.filter (fun o => o.type_.getD "" = "performance_issue")
  max 0 (100 - hits.length * 10)

/-- OrchestrationEngine._calculate_documentation_score. -/
def calculateDocumentationScore (observations : List Obs) : Rat :=
  let hits := observations.filter
    (fun o => (o.type_.getD "") ∈ ["missing_docstring", "poor_naming"])
  max 0 (100 - hits.length * 5)

/-- OrchestrationEngine._calculate_test_score. -/
def calculateTestScore (observations : List Obs) : Rat :=
  let hits := observations.filter (fun o => o.type_.getD "" = "missing_test")
  max 0 (100 - hits.length * 15)

/-- Abstraction of the float round(x, 2) of the source as a rational
half-up rounding; no theorem below depends on the tie-breaking detail. -/
def round2 (q : Rat) : Rat :=
  ((Int.floor (q * 100 + 1 / 2) : Int) : Rat) / 100

/-- OrchestrationEngine._calculate_quality_scores. -/
def calculateQualityScores (r : Report) : Report :=
  let counts : Nat × Nat := match r.errors with
    | .split c n => (c.length + n.length + r.observations.length, c.length)
    | .flat es => (es.length + r.observations.length, 0)
  let syntax_s := calculateSyntaxScore r.errors
  let security_s := calculateSecurityScore r.errors
  let performance_s := calculatePerformanceScore r.observations
  let documentation_s := calculateDocumentationScore r.observations
  let test_s := calculateTestScore r.observations
  let overall0 : Rat := (syntax_s + security_s + performance_s + documentation_s + test_s) / 5
  let overall : Rat :=
    if counts.2 > 0 then overall0 * max (1 / 10) (1 - (counts.2 : Rat) * (2 / 10))
    else overall0
  let qs : QualityScores :=
    { overall := round2 overall
      syntax_score := syntax_s
      security := security_s
      performance := performance_s
      documentation := documentation_s
      test_coverage := test_s
      total_issues := counts.1
      critical_issues := counts.2 }
  { r with quality_scores := some qs }

/-- Score read with the default of 100 used when quality_scores is absent. -/
def qsGet (r : Report) (f : QualityScores → Rat) : Rat :=
  match r.quality_scores with
  | some q => f q
  | none => 100

/-- OrchestrationEngine._generate_recommendations: every threshold rule
fires independently. -/
def generateRecommendations (r : Report) : Report :=
  let recs : List Recommendation :=
    (if qsGet r (fun q => q.syntax_score) < 80 then
      [{ type_ := "syntax", priority := "high"
         message := "Fix syntax errors to improve code quality"
         action := "review_and_fix_syntax_errors" }] else []) ++
    (if qsGet r (fun q => q.security) < 70 then
      [{ type_ := "security", priority := "critical"
         message := "Address security vulnerabilities immediately"
         action := "review_security_issues" }] else []) ++
    (if qsGet r (fun q => q.performance) < 60 then
      [{ type_ := "performance", priority := "medium"
         message := "Optimize code for better performance"
         action := "review_performance_suggestions" }] else []) ++
    (if qsGet r (fun q => q.documentation) < 50 then
      [{ type_ := "documentation", priority := "low"
         message := "Improve code documentation"
         action := "add_documentation" }] else []) ++
    (if qsGet r (fun q => q.test_coverage) < 60 then
      [{ type_ := "testing", priority := "medium"
         message := "Increase test coverage"
         action := "add_more_tests" }] else []) ++
    (if qsGet r (fun q => q.overall) < 50 then
      [{ type_ := "general", priority := "high"
         message := "Overall code quality needs significant improvement"
         action := "comprehensive_code_review" }] else [])
  { r with recommendations := some recs }

/-- OrchestrationEngine.apply_orchestration_rules: the four processing steps
followed by the orchestration stamp.  Each step catches its own errors, so
in the typed model nothing reaches the outer handler whose fallback would
return the input; apply is the straight composition. -/
def applyOrchestrationRules (r : Report) (analysis_id : String) (now : String) : Report :=
  let r4 := generateRecommendations (calculateQualityScores (prioritizeResults
    (handleCriticalErrors r)))
  let stamp : OrchStamp :=
    { analysis_id := analysis_id
      execution_strategy := "parallel"
      processed_at := now
      rules_applied := rulesAppliedList }
  { r4 with orchestration := some stamp }

/-! ## Coordinator entry point (src/agents/coordinator/coordinator.py and
src/agents/base/client_agent.py) -/

/-- Fixed analysis catalog from the CoordinatorAgent constructor. -/
def analysisConfig : List (String × AspectConfig) :=
  [("syntax_check",
    { capabilities := ["syntax_check", "linting", "style_validation"], priority := 1 }),
   ("security_scan",
    { capabilities := ["vulnerability_scan", "sql_injection_check", "xss_detection"],
      priority := 2 }),
   ("performance_analysis",
    { capabilities := ["complexity_analysis", "optimization_suggestions", "memory_analysis"],
      priority := 3 }),
   ("documentation_check",
    { capabilities := ["docstring_validation", "comment_analysis", "readability_assessment"],
      priority := 4 }),
   ("test_coverage",
    { capabilities := ["coverage_analysis", "test_quality_assessment",
                       "missing_test_suggestions"],
      priority := 5 })]

/-- TaskResponse from message_schema.py, as held in pending_responses.  The
result field abstracts the validated AnalysisResult payload; a pydantic
validation failure raises inside get_task_result and is caught there, which
the model folds into an absent result. -/
structure TaskResponse : Type where
  id : Option String := none
  result : Option AnalysisResult := none
  error : Option String := none
  deriving DecidableEq, Repr

/-- ClientAgent.get_task_result: None when the task id has no pending
response or the response carries an error; otherwise the validated result.
Every internal failure is caught and becomes None. -/
def getTaskResult (pending : List (String × TaskResponse)) (task_id : String) :
    Option AnalysisResult :=
  match dictGet pending task_id with
  | none => none
  | some resp =>
    match resp.error with
    | some _ => none
    | none => resp.result

/-- ClientAgent.send_task_by_capability: raises internally when no registry
is attached (caught, None), returns None when no agent matches, and catches
a send failure (the send argument models send_task_to_agent, with error as
a raised exception). -/
def sendTaskByCapability (registryPresent : Bool) (m : CapabilityMatcher)
    (send : String → Except String String) (required_capabilities : List String) :
    Option String :=
  if registryPresent = false then none
  else
    match m.find_best_agent required_capabilities with
    | none => none
    | some best =>
      match send best.agent_id with
      | .ok task_id => some task_id
      | .error _ => none

/-- Body of CoordinatorAgent.analyze_specific_aspect before its outer
try/except: an unknown aspect raises ValueError, a failed dispatch raises
Exception, and otherwise the awaited task result is returned. -/
def analyzeAspectInner (registryPresent : Bool) (m : CapabilityMatcher)
    (send : String → Except String String) (pending : List (String × TaskResponse))
    (aspect : String) : Except String (Option AnalysisResult) :=
  match dictGet analysisConfig aspect with
  | none => .error ("Unknown analysis aspect: " ++ aspect)
  | some config =>
    match sendTaskByCapability registryPresent m send config.capabilities with
    | none => .error ("No agent available for " ++ aspect)
    | some task_id => .ok (getTaskResult pending task_id)

/-- CoordinatorAgent.analyze_specific_aspect: the outer handler converts any
raised error into None. -/
def analyzeSpecificAspect (registryPresent : Bool) (m : CapabilityMatcher)
    (send : String → Except String String) (pending : List (String × TaskResponse))
    (aspect : String) : Option AnalysisResult :=
  match analyzeAspectInner registryPresent m send pending aspect with
  | .ok r => r
  | .error _ => none

/-! ## Registry operation sequences (for the task-count invariant) -/

/-- One mutating registry operation among those the task-count claim
quantifies over. -/
inductive RegOp : Type
  | register (info : AgentInfo) (now : String)
  | increment (agent_id : String)
  | decrement (agent_id : String)
  deriving Repr

/-- Apply one registry operation. -/
def applyRegOp (st : RegistryState) : RegOp → RegistryState
  | .register info now => (registerAgent st info now).2
  | .increment agent_id => incrementTaskCount st agent_id
  | .decrement agent_id => decrementTaskCount st agent_id

/-- Apply a sequence of registry operations in order. -/
def applyRegOps (st : RegistryState) (ops : List RegOp) : RegistryState :=
  ops.foldl applyRegOp st

/-- Runtime-state invariant of the registry: non-negative active counts,
bounded by the cumulative totals. -/
def TaskCountInv (st : RegistryState) : Prop :=
  ∀ p ∈ st.agent_status, 0 ≤ p.2.active_tasks ∧ p.2.active_tasks ≤ p.2.total_tasks

/-! ## Concrete fixtures used by counterexamples and witnesses -/

/-- Worker declaring one capability named x. -/
def infoAx : AgentInfo :=
  { agent_id := "agent-a", name := "A", version := "1.0"
    capabilities := [{ name := "x", description := "", parameters := [] }]
    endpoint := "http://a", status := "active", health_check_endpoint := some "http://a/health" }

/-- The same worker id re-registered with a disjoint capability named y. -/
def infoAy : AgentInfo :=
  { agent_id := "agent-a", name := "A", version := "1.1"
    capabilities := [{ name := "y", description := "", parameters := [] }]
    endpoint := "http://a", status := "active", health_check_endpoint := some "http://a/health" }

/-- Matcher state produced by adding infoAx and then re-adding the same id
as infoAy: the index entry for x survives although the stored descriptor no
longer declares x. -/
def staleMatcher : CapabilityMatcher :=
  (CapabilityMatcher.add_agent {} infoAx).add_agent infoAy

/-- Worker used by the dispatch scenario: holds only capability c2. -/
def infoW2 : AgentInfo :=
  { agent_id := "worker-2", name := "W2", version := "1.0"
    capabilities := [{ name := "c2", description := "", parameters := [] }]
    endpoint := "http://w2", status := "active", health_check_endpoint := some "http://w2/health" }

/-- Registry state holding just infoW2, freshly registered. -/
def oneWorkerState : RegistryState :=
  (registerAgent {} infoW2 "t0").2

/-- Probe that answers every endpoint with HTTP 200 in 10 milliseconds. -/
def healthyProbe : HealthProbe := fun _ => some (true, 1 / 100)

/-- Two-entry catalog whose first entry has no qualifying worker. -/
def twoEntryCatalog : List (String × AspectConfig) :=
  [("t1", { capabilities := ["c1"], priority := 1 }),
   ("t2", { capabilities := ["c2"], priority := 2 })]

/-- Completed analysis result with a single observation. -/
def oneObsResult (agent worker_obs_id : String) (o : Obs) : AnalysisResult :=
  { agent_id := agent, task_id := worker_obs_id, status := TaskStatus.completed
    observations := [o] }

/-- Observation shaped like the ones the in-repo workers emit: no agent_id
field. -/
def plainObs (t : String) (ln : Int) (msg sev : String) : Obs :=
  { type_ := some t, line_number := some ln, message := some msg, severity := some sev }

/-- Report whose suggestion priorities mix an int and a str, the shape on
which the in-place suggestion sort of _prioritize_results raises TypeError. -/
def mixedSugReport : Report :=
  { timestamp := "t", total_agents := 1, successful_agents := 1
    suggestions :=
      [{ type_ := some "perf", message := some "cache it", priority := some (PVal.int 5) },
       { type_ := some "perf", message := some "batch it", priority := some (PVal.str "high") }] }

/-- Error fixture: a duplicate pair plus a distinct critical error. -/
def demoErrA : Err :=
  { type_ := some "syntax_error", line_number := some 3
    message := some "bad indent", severity := some "warning" }

/-- Error fixture sharing the dedup key of demoErrA. -/
def demoErrB : Err :=
  { type_ := some "syntax_error", line_number := some 3
    message := some "bad indent", severity := some "error" }

/-- Error fixture with a distinct dedup key. -/
def demoErrC : Err :=
  { type_ := some "sql_injection", line_number := some 1
    message := some "raw query", severity := some "critical" }

/-- Error list used by closed instances of the deduplication claim. -/
def demoErrs : List Err := [demoErrA, demoErrB, demoErrC]

/-- Completed analysis result fixture without critical severities. -/
def demoResultW1 : AnalysisResult :=
  { agent_id := "w1", task_id := "task-1", status := TaskStatus.completed
    observations := [plainObs "missing_docstring" 2 "no docstring" "warning"]
    errors := [demoErrA]
    suggestions := [] }

/-- One-entry results map fixture. -/
def demoResults : List (String × AnalysisResult) := [("w1", demoResultW1)]

/-- The severity names the source maps to priorities. -/
def canonicalSeverities : List String := ["critical", "error", "warning", "info", "debug"]

/-- Observation carrying an agent_id field, as the merge claim requires. -/
def mkObs (t : String) (ln : Option Int) (msg sev aid : String) : Obs :=
  { type_ := some t, line_number := ln, message := some msg
    severity := some sev, agent_id := some aid }

/-- quality_scores value computed on a report without errors and without
observations. -/
def cleanQS : QualityScores :=
  { overall := 100, syntax_score := 100, security := 100, performance := 100
    documentation := 100, test_coverage := 100, total_issues := 0, critical_issues := 0 }

/-- Orchestration stamp for a given analysis id and timestamp. -/
def mkStamp (aid t : String) : OrchStamp :=
  { analysis_id := aid, execution_strategy := "parallel"
    processed_at := t, rules_applied := rulesAppliedList }

/-! ## Dictionary lemmas -/

theorem dictGet_dictSet_self {α : Type} (l : List (String × α)) (k : String) (v : α) :
    dictGet (dictSet l k v) k = some v := by
  induction l with
  | nil => simp [dictSet, dictGet]
  | cons p rest ih =>
    obtain ⟨k0, v0⟩ := p
    by_cases h : k0 = k
    · subst h
      simp [dictSet, dictGet]
    · simp [dictSet, dictGet, h, ih]

theorem mem_dictSet {α : Type} {l : List (String × α)} {k : String} {v : α} {p : String × α}
    (hp : p ∈ dictSet l k v) : p = (k, v) ∨ p ∈ l := by
  induction l with
  | nil => simpa [dictSet] using hp
  | cons q rest ih =>
    obtain ⟨k0, v0⟩ := q
    by_cases h : k0 = k
    · subst h
      rcases (by simpa [dictSet] using hp : p = (k0, v) ∨ p ∈ rest) with h1 | h1
      · exact Or.inl h1
      · exact Or.inr (List.mem_cons_of_mem _ h1)
    · rcases (by simpa [dictSet, h] using hp : p = (k0, v0) ∨ p ∈ dictSet rest k v) with h1 | h1
      · exact Or.inr (by simp [h1])
      · rcases ih h1 with h2 | h2
        · exact Or.inl h2
        · exact Or.inr (List.mem_cons_of_mem _ h2)

theorem dictGet_mem {α : Type} {l : List (String × α)} {k : String} {v : α}
    (h : dictGet l k = some v) : (k, v) ∈ l := by
  induction l with
  | nil => simp [dictGet] at h
  | cons p rest ih =>
    obtain ⟨k0, v0⟩ := p
    by_cases hk : k0 = k
    · subst hk
      simp [dictGet] at h
      simp [h]
    · simp [dictGet, hk] at h
      exact List.mem_cons_of_mem _ (ih h)

/-! ## Claim C9: the registry task-count invariant -/

theorem taskCountInv_applyRegOp {st : RegistryState} (h : TaskCountInv st) (op : RegOp) :
    TaskCountInv (applyRegOp st op) := by
  cases op with
  | register info now =>
    intro p hp
    rcases mem_dictSet hp with h1 | h1
    · subst h1
      exact ⟨le_refl 0, le_refl 0⟩
    · exact h p h1
  | increment agent_id =>
    intro p hp
    simp only [applyRegOp] at hp
    unfold incrementTaskCount at hp
    cases hg : dictGet st.agent_status agent_id with
    | none => rw [hg] at hp; exact h p hp
    | some rs =>
      rw [hg] at hp
      rcases mem_dictSet hp with h1 | h1
      · have h4 := h _ (dictGet_mem hg)
        simp only [Prod.snd] at h4
        obtain ⟨h2, h3⟩ := h4
        subst h1
        constructor <;> simp <;> omega
      · exact h p h1
  | decrement agent_id =>
    intro p hp
    simp only [applyRegOp] at hp
    unfold decrementTaskCount at hp
    cases hg : dictGet st.agent_status agent_id with
    | none => rw [hg] at hp; exact h p hp
    | some rs =>
      rw [hg] at hp
      rcases mem_dictSet hp with h1 | h1
      · have h4 := h _ (dictGet_mem hg)
        simp only [Prod.snd] at h4
        obtain ⟨h2, h3⟩ := h4
        subst h1
        refine ⟨le_max_left _ _, ?_⟩
        simp only
        exact max_le (le_trans h2 h3) (by omega)
      · exact h p h1

/-- Claim C9: starting from the empty registry, or any state satisfying it,
every sequence of register / increment_task_count / decrement_task_count
operations preserves 0 ≤ active_tasks ≤ total_tasks, and a decrement on a
worker with zero active tasks leaves the count at zero. -/
theorem registry_task_count_invariant :
    TaskCountInv ({} : RegistryState) ∧
    (∀ (st : RegistryState) (ops : List RegOp),
      TaskCountInv st → TaskCountInv (applyRegOps st ops)) ∧
    (∀ (st : RegistryState) (agent_id : String),
      (dictGet st.agent_status agent_id).map (fun rs => rs.active_tasks) = some 0 →
      (dictGet (decrementTaskCount st agent_id).agent_status agent_id).map
        (fun rs => rs.active_tasks) = some 0) := by
  refine ⟨?_, ?_, ?_⟩
  · intro p hp
    simp [RegistryState.agent_status] at hp
  · intro st ops h
    induction ops generalizing st with
    | nil => exact h
    | cons op rest ih => exact ih _ (taskCountInv_applyRegOp h op)
  · intro st agent_id h
    cases hg : dictGet st.agent_status agent_id with
    | none => rw [hg] at h; simp at h
    | some rs =>
      rw [hg] at h
      simp at h
      unfold decrementTaskCount
      rw [hg]
      simp [dictGet_dictSet_self, h]

/-- Closed instance of the C9 theorem on a concrete one-worker registry. -/
theorem registry_task_count_invariant_witness :
    TaskCountInv (applyRegOps oneWorkerState
      [RegOp.increment "worker-2", RegOp.decrement "worker-2", RegOp.decrement "worker-2"]) ∧
    (dictGet (decrementTaskCount oneWorkerState "worker-2").agent_status "worker-2").map
      (fun rs => rs.active_tasks) = some 0 :=
  ⟨registry_task_count_invariant.2.1 oneWorkerState _ (by unfold TaskCountInv; decide),
   registry_task_count_invariant.2.2 oneWorkerState "worker-2" (by decide)⟩

/-! ## Claim C4: register as upsert -/

/-- Counterexample to claim C4 as stated: after register, one dispatched
task (active_tasks = 1), and a re-register of the same id, the stored
runtime state shows zero active tasks instead of the preserved one. -/
theorem register_preserves_runtime_state_counterexample :
    (dictGet (incrementTaskCount (registerAgent {} infoAx "t0").2 "agent-a").agent_status
      "agent-a").map (fun rs => rs.active_tasks) = some 1 ∧
    (dictGet (registerAgent
        (incrementTaskCount (registerAgent {} infoAx "t0").2 "agent-a")
        infoAx "t1").2.agent_status "agent-a").map (fun rs => rs.active_tasks) = some 0 := by
  constructor <;> decide

/-- Claim C4 amended: register always succeeds and replaces the stored
metadata, but the runtime state is re-initialised to unknown health and
zero task counts on every registration, re-registration included; it is not
preserved on update. -/
theorem register_upsert_resets_runtime_state (st : RegistryState) (info : AgentInfo)
    (now : String) :
    (registerAgent st info now).1 = true ∧
    dictGet (registerAgent st info now).2.agents info.agent_id = some info ∧
    dictGet (registerAgent st info now).2.agent_status info.agent_id =
      some (freshStatus info now) :=
  ⟨rfl, dictGet_dictSet_self _ _ _, dictGet_dictSet_self _ _ _⟩

/-! ## Claim C1: find_best_agent returns only capability supersets -/

theorem pyDedup_mem {x : String} : ∀ {l : List String}, x ∈ pyDedup l ↔ x ∈ l := by
  intro l
  induction l with
  | nil => simp [pyDedup]
  | cons y ys ih =>
    by_cases hy : y ∈ ys
    · simp only [pyDedup, if_pos hy]
      rw [ih]
      constructor
      · exact fun h => List.mem_cons_of_mem _ h
      · intro h
        rcases List.mem_cons.mp h with rfl | h
        · exact hy
        · exact h
    · simp only [pyDedup, if_neg hy, List.mem_cons]
      rw [ih]

theorem mem_foldl_filter (m : CapabilityMatcher) {x : String} :
    ∀ {cs : List String} {init : List String},
    x ∈ cs.foldl (fun acc c => acc.filter (fun id => id ∈ m.idxGet c)) init →
    x ∈ init ∧ ∀ c ∈ cs, x ∈ m.idxGet c := by
  intro cs
  induction cs with
  | nil => exact fun hx => ⟨hx, by simp⟩
  | cons c rest ih =>
    intro init hx
    rw [List.foldl_cons] at hx
    obtain ⟨h1, h2⟩ := ih hx
    rw [List.mem_filter] at h1
    refine ⟨h1.1, ?_⟩
    intro d hd
    rcases List.mem_cons.mp hd with rfl | hd
    · exact of_decide_eq_true h1.2
    · exact h2 d hd

theorem mem_find_agents {m : CapabilityMatcher} {caps : List String} {a : AgentInfo}
    (ha : a ∈ m.find_agents_by_capabilities caps) :
    ∃ id, dictGet m.agents id = some a ∧ ∀ c ∈ caps, id ∈ m.idxGet c := by
  cases caps with
  | nil => simp [CapabilityMatcher.find_agents_by_capabilities] at ha
  | cons c0 rest =>
    unfold CapabilityMatcher.find_agents_by_capabilities at ha
    rw [List.mem_filterMap] at ha
    obtain ⟨id, hid, hlook⟩ := ha
    obtain ⟨h1, h2⟩ := mem_foldl_filter m hid
    refine ⟨id, hlook, ?_⟩
    intro c hc
    rcases List.mem_cons.mp hc with rfl | hc
    · exact h1
    · exact h2 c hc

theorem foldl_best_mem (req : List String) :
    ∀ (l : List AgentInfo) (acc : Option AgentInfo × Rat) (a : AgentInfo),
    (l.foldl
      (fun (p : Option AgentInfo × Rat) x =>
        let s := calculateAgentScore x req
        if s > p.2 then (some x, s) else p) acc).1 = some a →
    acc.1 = some a ∨ a ∈ l := by
  intro l
  induction l with
  | nil => exact fun acc a h => Or.inl h
  | cons x xs ih =>
    intro acc a h
    rw [List.foldl_cons] at h
    rcases ih _ a h with h1 | h1
    · dsimp only at h1
      by_cases hs : calculateAgentScore x req > acc.2
      · rw [if_pos hs] at h1
        simp only [Option.some.injEq] at h1
        exact Or.inr (by simp [h1])
      · rw [if_neg hs] at h1
        exact Or.inl h1
    · exact Or.inr (List.mem_cons_of_mem _ h1)

theorem consistent_idx {m : CapabilityMatcher} (hc : m.consistent = true) {c id : String}
    {a : AgentInfo} (hid : id ∈ m.idxGet c) (ha : dictGet m.agents id = some a) :
    c ∈ capNames a := by
  unfold CapabilityMatcher.consistent at hc
  rw [List.all_eq_true] at hc
  unfold CapabilityMatcher.idxGet at hid
  cases hg : dictGet m.capability_index c with
  | none => rw [hg] at hid; simp at hid
  | some ids =>
    rw [hg] at hid
    simp only [Option.getD_some] at hid
    have hpair := hc (c, ids) (dictGet_mem hg)
    rw [List.all_eq_true] at hpair
    have h2 := hpair id hid
    rw [ha] at h2
    simp only [List.any_eq_true] at h2
    obtain ⟨cap, hcap, heq⟩ := h2
    unfold capNames
    rw [pyDedup_mem]
    exact List.mem_map.mpr ⟨cap, hcap, of_decide_eq_true heq⟩

/-- Claim C1 amended: find_best_agent of an empty requirement list is
always None, and in every matcher state whose capability index is
consistent with the stored descriptors (as any state reached without
re-registering an id with a reduced capability set is) a returned worker
declares every required capability.  As literally stated the claim fails:
see the stale-index counterexample. -/
theorem find_best_agent_superset :
    (∀ m : CapabilityMatcher, m.find_best_agent [] = none) ∧
    (∀ (m : CapabilityMatcher) (req : List String) (a : AgentInfo),
      m.consistent = true → m.find_best_agent req = some a →
      ∀ c ∈ req, c ∈ capNames a) := by
  constructor
  · intro m
    unfold CapabilityMatcher.find_best_agent
    rw [if_pos rfl]
  · intro m req a hcons hfind c hc
    unfold CapabilityMatcher.find_best_agent at hfind
    by_cases hreq : req = []
    · rw [if_pos hreq] at hfind
      exact absurd hfind (by simp)
    · rw [if_neg hreq] at hfind
      have hmem : a ∈ m.find_agents_by_capabilities req := by
        rcases foldl_best_mem req _ _ a hfind with h1 | h1
        · exact absurd h1 (by simp)
        · exact h1
      obtain ⟨id, hlook, hall⟩ := mem_find_agents hmem
      exact consistent_idx hcons (hall c hc) hlook

theorem calculateAgentScore_nonneg (a : AgentInfo) (req : List String) :
    0 ≤ calculateAgentScore a req := by
  unfold calculateAgentScore
  have h1 : (0 : Rat) ≤ ((pyDedup req).filter (fun c => c ∈ capNames a)).length := by
    positivity
  have h2 : (0 : Rat) ≤ ((capNames a).filter (fun c => c ∉ req)).length := by
    positivity
  have h3 : (0 : Rat) ≤
      (if a.status = "active" then (5 : Rat) else if a.status = "maintenance" then 1 else 0) := by
    split <;> norm_num
    split <;> norm_num
  have h4 : (0 : Rat) ≤ (a.capabilities.map
      (fun c => (c.parameters.length : Rat) * (1 / 10))).sum := by
    apply List.sum_nonneg
    intro x hx
    rw [List.mem_map] at hx
    obtain ⟨c, _, rfl⟩ := hx
    positivity
  have h5 : (0 : Rat) ≤ ((pyDedup req).filter (fun c => c ∈ capNames a)).length * 10 := by
    positivity
  have h6 : (0 : Rat) ≤ ((capNames a).filter (fun c => c ∉ req)).length * 2 := by
    positivity
  linarith

/-- Evaluation helper: on a one-candidate list the scoring fold returns that
candidate, because every score is non-negative and so beats the initial -1. -/
theorem find_best_single {m : CapabilityMatcher} {req : List String} {a : AgentInfo}
    (hreq : req ≠ []) (hcand : m.find_agents_by_capabilities req = [a]) :
    m.find_best_agent req = some a := by
  unfold CapabilityMatcher.find_best_agent
  rw [if_neg hreq, hcand]
  have hs : calculateAgentScore a req > -1 :=
    lt_of_lt_of_le (by norm_num) (calculateAgentScore_nonneg a req)
  simp [List.foldl, hs]

/-- Counterexample to claim C1 as stated: after add_agent of the same id
with capability x and then with capability y only, the index entry for x is
stale, and find_best_agent for x returns the stored descriptor although it
does not declare x. -/
theorem find_best_agent_superset_counterexample :
    staleMatcher.find_best_agent ["x"] = some infoAy ∧ "x" ∉ capNames infoAy := by
  constructor
  · exact find_best_single (by decide) (by decide)
  · decide

/-- Closed instance of the amended C1 theorem on a consistent one-agent
matcher. -/
theorem find_best_agent_superset_witness :
    (CapabilityMatcher.add_agent {} infoAx).consistent = true ∧ "x" ∈ capNames infoAx :=
  ⟨by decide,
   find_best_agent_superset.2 (CapabilityMatcher.add_agent {} infoAx) ["x"] infoAx
     (by decide) (find_best_single (by decide) (by decide)) "x" (by decide)⟩

/-! ## Claim C6: distribution isolates per-entry failures -/

theorem distribute_acc (probe : HealthProbe) (now : String) :
    ∀ (catalog : List (String × AspectConfig)) (xs : List (String × String))
      (st : RegistryState),
    catalog.foldl (distStep probe now) (xs, st) =
      (xs ++ (catalog.foldl (distStep probe now) ([], st)).1,
       (catalog.foldl (distStep probe now) ([], st)).2) := by
  intro catalog
  induction catalog with
  | nil => intro xs st; simp
  | cons e rest ih =>
    intro xs st
    rw [List.foldl_cons, List.foldl_cons]
    cases hstep : distributeSingleTask st probe now e.1 e.2 with
    | mk tid st2 =>
      cases tid with
      | some t =>
        simp only [distStep, hstep]
        rw [ih (xs ++ [(e.1, t)]) st2]
        simp only [List.nil_append]
        rw [ih [(e.1, t)] st2]
        simp [List.append_assoc]
      | none =>
        simp only [distStep, hstep]
        rw [ih xs st2]

theorem distribute_success_cons {st : RegistryState} {probe : HealthProbe}
    {now aType : String} {cfg : AspectConfig} {tid : String} {st2 : RegistryState}
    (rest : List (String × AspectConfig))
    (h : distributeSingleTask st probe now aType cfg = (some tid, st2)) :
    distributeAnalysisTasks st probe now ((aType, cfg) :: rest) =
      ((aType, tid) :: (distributeAnalysisTasks st2 probe now rest).1,
       (distributeAnalysisTasks st2 probe now rest).2) := by
  unfold distributeAnalysisTasks
  rw [List.foldl_cons]
  have hstep : distStep probe now ([], st) (aType, cfg) = ([(aType, tid)], st2) := by
    simp [distStep, h]
  rw [hstep, distribute_acc probe now rest [(aType, tid)] st2]
  simp

theorem distribute_failure_cons {st : RegistryState} {probe : HealthProbe}
    {now aType : String} {cfg : AspectConfig} {st2 : RegistryState}
    (rest : List (String × AspectConfig))
    (h : distributeSingleTask st probe now aType cfg = (none, st2)) :
    distributeAnalysisTasks st probe now ((aType, cfg) :: rest) =
      distributeAnalysisTasks st2 probe now rest := by
  unfold distributeAnalysisTasks
  rw [List.foldl_cons]
  have hstep : distStep probe now ([], st) (aType, cfg) = ([], st2) := by
    simp [distStep, h]
  rw [hstep]

theorem single_fail_noagent {st : RegistryState} {probe : HealthProbe}
    {now aType : String} {cfg : AspectConfig}
    (h : st.find_best_agent cfg.capabilities = none) :
    distributeSingleTask st probe now aType cfg = (none, st) := by
  unfold distributeSingleTask
  rw [h]

theorem single_fail_unhealthy {st : RegistryState} {probe : HealthProbe}
    {now aType : String} {cfg : AspectConfig} {best : AgentInfo}
    (h : st.find_best_agent cfg.capabilities = some best)
    (hh : (checkAgentHealth st probe now best.agent_id).1 = false) :
    distributeSingleTask st probe now aType cfg =
      (none, (checkAgentHealth st probe now best.agent_id).2) := by
  unfold distributeSingleTask
  rw [h]
  simp [hh]

theorem single_fail_capacity {st : RegistryState} {probe : HealthProbe}
    {now aType : String} {cfg : AspectConfig} {best : AgentInfo}
    (h : st.find_best_agent cfg.capabilities = some best)
    (hh : (checkAgentHealth st probe now best.agent_id).1 = true)
    (hcap : 5 ≤ ((dictGet (checkAgentHealth st probe now best.agent_id).2.agent_status
      best.agent_id).map (fun rs => rs.active_tasks)).getD 0) :
    distributeSingleTask st probe now aType cfg =
      (none, (checkAgentHealth st probe now best.agent_id).2) := by
  unfold distributeSingleTask
  rw [h]
  simp only [hh]
  rw [if_neg (by simp), if_pos hcap]

/-- Claim C6: the result map of distribute holds exactly the entries whose
dispatch succeeded.  A failing entry, whether from a missing qualifying
worker, an unhealthy best match, or a best match at capacity, is omitted
and the remaining entries are distributed exactly as they would have been
without it; a succeeding entry contributes its task id.  The closing
conjunct is the two-entry scenario: one entry without a qualifying worker,
one dispatchable entry, giving a one-entry map. -/
theorem distribute_exactly_successes :
    (∀ (st : RegistryState) (probe : HealthProbe) (now aType : String)
       (cfg : AspectConfig) (rest : List (String × AspectConfig)) (tid : String)
       (st2 : RegistryState),
      distributeSingleTask st probe now aType cfg = (some tid, st2) →
      distributeAnalysisTasks st probe now ((aType, cfg) :: rest) =
        ((aType, tid) :: (distributeAnalysisTasks st2 probe now rest).1,
         (distributeAnalysisTasks st2 probe now rest).2)) ∧
    (∀ (st : RegistryState) (probe : HealthProbe) (now aType : String)
       (cfg : AspectConfig) (rest : List (String × AspectConfig)) (st2 : RegistryState),
      distributeSingleTask st probe now aType cfg = (none, st2) →
      distributeAnalysisTasks st probe now ((aType, cfg) :: rest) =
        distributeAnalysisTasks st2 probe now rest) ∧
    (∀ (st : RegistryState) (probe : HealthProbe) (now aType : String) (cfg : AspectConfig),
      st.find_best_agent cfg.capabilities = none →
      distributeSingleTask st probe now aType cfg = (none, st)) ∧
    (∀ (st : RegistryState) (probe : HealthProbe) (now aType : String) (cfg : AspectConfig)
       (best : AgentInfo),
      st.find_best_agent cfg.capabilities = some best →
      (checkAgentHealth st probe now best.agent_id).1 = false →
      distributeSingleTask st probe now aType cfg =
        (none, (checkAgentHealth st probe now best.agent_id).2)) ∧
    (∀ (st : RegistryState) (probe : HealthProbe) (now aType : String) (cfg : AspectConfig)
       (best : AgentInfo),
      st.find_best_agent cfg.capabilities = some best →
      (checkAgentHealth st probe now best.agent_id).1 = true →
      5 ≤ ((dictGet (checkAgentHealth st probe now best.agent_id).2.agent_status
        best.agent_id).map (fun rs => rs.active_tasks)).getD 0 →
      distributeSingleTask st probe now aType cfg =
        (none, (checkAgentHealth st probe now best.agent_id).2)) ∧
    (distributeAnalysisTasks oneWorkerState healthyProbe "now" twoEntryCatalog).1 =
      [("t2", "t2_now")] := by
  refine ⟨fun st probe now aType cfg rest tid st2 h => distribute_success_cons rest h,
         fun st probe now aType cfg rest st2 h => distribute_failure_cons rest h,
         fun st probe now aType cfg h => single_fail_noagent h,
         fun st probe now aType cfg best h hh => single_fail_unhealthy h hh,
         fun st probe now aType cfg best h hh hcap => single_fail_capacity h hh hcap,
         ?_⟩
  have hb1 : oneWorkerState.find_best_agent
      ({ capabilities := ["c1"], priority := 1 } : AspectConfig).capabilities = none := by
    decide
  have hb2 : oneWorkerState.find_best_agent
      ({ capabilities := ["c2"], priority := 2 } : AspectConfig).capabilities = some infoW2 := by
    exact find_best_single (by decide) (by decide)
  have h1 : distributeSingleTask oneWorkerState healthyProbe "now" "t1"
      { capabilities := ["c1"], priority := 1 } = (none, oneWorkerState) :=
    single_fail_noagent hb1
  have h2 : distributeSingleTask oneWorkerState healthyProbe "now" "t2"
      { capabilities := ["c2"], priority := 2 } =
      (some "t2_now",
       incrementTaskCount (checkAgentHealth oneWorkerState healthyProbe "now"
         "worker-2").2 "worker-2") := by
    unfold distributeSingleTask
    rw [hb2]
    rfl
  show (distributeAnalysisTasks oneWorkerState healthyProbe "now"
    (("t1", { capabilities := ["c1"], priority := 1 }) ::
     ("t2", { capabilities := ["c2"], priority := 2 }) :: [])).1 = [("t2", "t2_now")]
  rw [distribute_failure_cons _ h1, distribute_success_cons _ h2]
  simp [distributeAnalysisTasks]

/-- Closed instance of the C6 theorem: dropping the first catalog entry on
a missing best agent. -/
theorem distribute_exactly_successes_witness :
    distributeSingleTask oneWorkerState healthyProbe "now" "t1"
      { capabilities := ["c1"], priority := 1 } = (none, oneWorkerState) :=
  distribute_exactly_successes.2.2.1 oneWorkerState healthyProbe "now" "t1"
    { capabilities := ["c1"], priority := 1 } (by decide)

/-! ## Claim C10: analyze_specific_aspect never raises past its boundary -/

/-- Claim C10: every raised error is converted to None at the boundary, and
each failure case, an aspect outside the fixed catalog, no agent for the
required capabilities (including a missing registry), a raised send error,
and a missing or error-carrying response while awaiting the result, yields
None rather than an exception. -/
theorem analyze_specific_aspect_no_raise :
    (∀ (rp : Bool) (m : CapabilityMatcher) (send : String → Except String String)
       (pending : List (String × TaskResponse)) (aspect e : String),
      analyzeAspectInner rp m send pending aspect = .error e →
      analyzeSpecificAspect rp m send pending aspect = none) ∧
    (∀ (rp : Bool) (m : CapabilityMatcher) (send : String → Except String String)
       (pending : List (String × TaskResponse)) (aspect : String),
      dictGet analysisConfig aspect = none →
      analyzeSpecificAspect rp m send pending aspect = none) ∧
    (∀ (rp : Bool) (m : CapabilityMatcher) (send : String → Except String String)
       (pending : List (String × TaskResponse)) (aspect : String) (config : AspectConfig),
      dictGet analysisConfig aspect = some config →
      sendTaskByCapability rp m send config.capabilities = none →
      analyzeSpecificAspect rp m send pending aspect = none) ∧
    (∀ (m : CapabilityMatcher) (send : String → Except String String)
       (aspect : String) (config : AspectConfig),
      dictGet analysisConfig aspect = some config →
      m.find_best_agent config.capabilities = none →
      sendTaskByCapability true m send config.capabilities = none) ∧
    (∀ (m : CapabilityMatcher) (send : String → Except String String)
       (aspect : String) (config : AspectConfig) (best : AgentInfo) (err : String),
      dictGet analysisConfig aspect = some config →
      m.find_best_agent config.capabilities = some best →
      send best.agent_id = .error err →
      sendTaskByCapability true m send config.capabilities = none) ∧
    (∀ (rp : Bool) (m : CapabilityMatcher) (send : String → Except String String)
       (pending : List (String × TaskResponse)) (aspect : String) (config : AspectConfig)
       (task_id : String),
      dictGet analysisConfig aspect = some config →
      sendTaskByCapability rp m send config.capabilities = some task_id →
      dictGet pending task_id = none →
      analyzeSpecificAspect rp m send pending aspect = none) ∧
    (∀ (rp : Bool) (m : CapabilityMatcher) (send : String → Except String String)
       (pending : List (String × TaskResponse)) (aspect : String) (config : AspectConfig)
       (task_id : String) (resp : TaskResponse) (msg : String),
      dictGet analysisConfig aspect = some config →
      sendTaskByCapability rp m send config.capabilities = some task_id →
      dictGet pending task_id = some resp →
      resp.error = some msg →
      analyzeSpecificAspect rp m send pending aspect = none) := by
  refine ⟨?_, ?_, ?_, ?_, ?_, ?_, ?_⟩
  · intro rp m send pending aspect e h
    unfold analyzeSpecificAspect
    rw [h]
  · intro rp m send pending aspect h
    unfold analyzeSpecificAspect analyzeAspectInner
    rw [h]
  · intro rp m send pending aspect config hc hs
    unfold analyzeSpecificAspect analyzeAspectInner
    rw [hc]
    dsimp only
    rw [hs]
  · intro m send aspect config hc hb
    unfold sendTaskByCapability
    simp [hb]
  · intro m send aspect config best err hc hb hsend
    unfold sendTaskByCapability
    simp [hb, hsend]
  · intro rp m send pending aspect config task_id hc hs hp
    unfold analyzeSpecificAspect analyzeAspectInner
    rw [hc]
    dsimp only
    rw [hs]
    dsimp only
    unfold getTaskResult
    rw [hp]
  · intro rp m send pending aspect config task_id resp msg hc hs hp he
    unfold analyzeSpecificAspect analyzeAspectInner
    rw [hc]
    dsimp only
    rw [hs]
    dsimp only
    unfold getTaskResult
    rw [hp]
    dsimp only
    rw [he]

/-- Closed instance of the C10 theorem: an unknown aspect and a known
aspect whose dispatch fails both produce None. -/
theorem analyze_specific_aspect_no_raise_witness :
    analyzeSpecificAspect true {} (fun _ => .error "connection refused") [] "bogus_aspect"
      = none ∧
    analyzeSpecificAspect true {} (fun _ => .error "connection refused") [] "syntax_check"
      = none :=
  ⟨analyze_specific_aspect_no_raise.2.1 true {} (fun _ => .error "connection refused")
      [] "bogus_aspect" (by decide),
   analyze_specific_aspect_no_raise.2.2.1 true {} (fun _ => .error "connection refused")
      [] "syntax_check"
      { capabilities := ["syntax_check", "linting", "style_validation"], priority := 1 }
      (by decide) (by decide)⟩

/-! ## Claim C7: error deduplication and sorting -/

theorem dedupFirstBy_not_seen {α κ : Type} [DecidableEq κ] (key : α → κ) :
    ∀ {seen : List κ} {l : List α} {e : α},
    e ∈ dedupFirstBy key seen l → key e ∉ seen := by
  intro seen l
  induction l generalizing seen with
  | nil => intro e he; simp [dedupFirstBy] at he
  | cons a as ih =>
    intro e he
    by_cases ha : key a ∈ seen
    · rw [dedupFirstBy, if_pos ha] at he
      exact ih he
    · rw [dedupFirstBy, if_neg ha] at he
      rcases List.mem_cons.mp he with rfl | he
      · exact ha
      · have := ih he
        intro hcontra
        exact this (List.mem_cons_of_mem _ hcontra)

theorem dedupFirstBy_pairwise {α κ : Type} [DecidableEq κ] (key : α → κ) :
    ∀ (seen : List κ) (l : List α),
    (dedupFirstBy key seen l).Pairwise (fun a b => key a ≠ key b) := by
  intro seen l
  induction l generalizing seen with
  | nil => simp [dedupFirstBy]
  | cons a as ih =>
    by_cases ha : key a ∈ seen
    · rw [dedupFirstBy, if_pos ha]
      exact ih seen
    · rw [dedupFirstBy, if_neg ha]
      refine List.Pairwise.cons ?_ (ih (key a :: seen))
      intro b hb
      have := dedupFirstBy_not_seen key hb
      intro hcontra
      exact this (by rw [← hcontra]; exact List.mem_cons_self _ _)

theorem dedupFirstBy_first_occurrence {α κ : Type} [DecidableEq κ] (key : α → κ) :
    ∀ {seen : List κ} {l : List α} {e : α},
    e ∈ dedupFirstBy key seen l →
    ∃ l1 l2, l = l1 ++ e :: l2 ∧ ∀ x ∈ l1, key x ≠ key e := by
  intro seen l
  induction l generalizing seen with
  | nil => intro e he; simp [dedupFirstBy] at he
  | cons a as ih =>
    intro e he
    by_cases ha : key a ∈ seen
    · rw [dedupFirstBy, if_pos ha] at he
      obtain ⟨l1, l2, heq, hkeys⟩ := ih he
      have hne : key a ≠ key e := by
        intro hcontra
        exact (dedupFirstBy_not_seen key he) (hcontra ▸ ha)
      exact ⟨a :: l1, l2, by simp [heq], by
        intro x hx
        rcases List.mem_cons.mp hx with rfl | hx
        · exact hne
        · exact hkeys x hx⟩
    · rw [dedupFirstBy, if_neg ha] at he
      rcases List.mem_cons.mp he with rfl | he
      · exact ⟨[], as, rfl, by simp⟩
      · obtain ⟨l1, l2, heq, hkeys⟩ := ih he
        have hne : key a ≠ key e := by
          intro hcontra
          exact (dedupFirstBy_not_seen key he)
            (by rw [← hcontra]; exact List.mem_cons_self _ _)
        exact ⟨a :: l1, l2, by simp [heq], by
          intro x hx
          rcases List.mem_cons.mp hx with rfl | hx
          · exact hne
          · exact hkeys x hx⟩

theorem dedupFirstBy_covers {α κ : Type} [DecidableEq κ] (key : α → κ) :
    ∀ {seen : List κ} {l : List α} {e : α}, e ∈ l →
    key e ∈ seen ∨ ∃ u ∈ dedupFirstBy key seen l, key u = key e := by
  intro seen l
  induction l generalizing seen with
  | nil => intro e he; simp at he
  | cons a as ih =>
    intro e he
    by_cases ha : key a ∈ seen
    · rw [dedupFirstBy, if_pos ha]
      rcases List.mem_cons.mp he with rfl | he
      · exact Or.inl ha
      · exact ih he
    · rw [dedupFirstBy, if_neg ha]
      rcases List.mem_cons.mp he with heq2 | he
      · exact Or.inr ⟨a, List.mem_cons_self _ _, (congrArg key heq2).symm⟩
      · rcases ih he with hseen | ⟨u, hu, hku⟩
        · rcases List.mem_cons.mp hseen with heq | hseen
          · exact Or.inr ⟨a, List.mem_cons_self _ _, heq.symm⟩
          · exact Or.inl hseen
        · exact Or.inr ⟨u, List.mem_cons_of_mem _ hu, hku⟩

/-- Claim C7: in the aggregated error list any two input errors with equal
type, line number and first 100 message characters collapse to one entry,
the kept entry is the first occurrence of its key in the input, every input
key is still represented, and the output is sorted by ascending severity
priority (critical=1, error=2, warning=3, info=4, debug=5) then ascending
line number. -/
theorem aggregate_errors_dedup_sorted (errors : List Err) :
    ((aggregateErrors errors).Sorted (keyLE errSortKey)) ∧
    ((aggregateErrors errors).Pairwise (fun a b => errDedupKey a ≠ errDedupKey b)) ∧
    (∀ e ∈ aggregateErrors errors, ∃ l1 l2, errors = l1 ++ e :: l2 ∧
      ∀ x ∈ l1, errDedupKey x ≠ errDedupKey e) ∧
    (∀ e ∈ errors, ∃ u ∈ aggregateErrors errors, errDedupKey u = errDedupKey e) := by
  refine ⟨pySortByKey_sorted _ _, ?_, ?_, ?_⟩
  · have hperm := pySortByKey_perm errSortKey (dedupFirstBy errDedupKey [] errors)
    have hsym : Symmetric (fun a b : Err => errDedupKey a ≠ errDedupKey b) :=
      fun a b h => fun hcontra => h hcontra.symm
    exact (hperm.pairwise_iff (fun hxy => hsym hxy)).mpr
      (dedupFirstBy_pairwise errDedupKey [] errors)
  · intro e he
    have hmem : e ∈ dedupFirstBy errDedupKey [] errors :=
      (pySortByKey_perm errSortKey _).mem_iff.mp he
    exact dedupFirstBy_first_occurrence errDedupKey hmem
  · intro e he
    rcases @dedupFirstBy_covers Err _ _ errDedupKey [] errors e he with hseen | ⟨u, hu, hku⟩
    · simp at hseen
    · exact ⟨u, (pySortByKey_perm errSortKey _).mem_iff.mpr hu, hku⟩

/-- Closed instance of the C7 theorem on the three-error fixture. -/
theorem aggregate_errors_dedup_sorted_witness :
    (∃ u ∈ aggregateErrors demoErrs, errDedupKey u = errDedupKey demoErrA) ∧
    (∃ u ∈ aggregateErrors demoErrs, errDedupKey u = errDedupKey demoErrB) :=
  ⟨(aggregate_errors_dedup_sorted demoErrs).2.2.2 demoErrA (by decide),
   (aggregate_errors_dedup_sorted demoErrs).2.2.2 demoErrB (by decide)⟩

/-! ## Counting and grouping lemmas -/

theorem dictGet_dictSet_ne {α : Type} (l : List (String × α)) {k k2 : String} (v : α)
    (h : k ≠ k2) : dictGet (dictSet l k v) k2 = dictGet l k2 := by
  induction l with
  | nil => simp [dictSet, dictGet, h]
  | cons p rest ih =>
    obtain ⟨k0, v0⟩ := p
    by_cases hk : k0 = k
    · subst hk
      simp [dictSet, dictGet, h]
    · simp [dictSet, dictGet, hk, ih]

theorem bumpCount_lookup (counts : List (String × Nat)) (k k2 : String) :
    (dictGet (bumpCount counts k) k2).getD 0 =
      (dictGet counts k2).getD 0 + (if k = k2 then 1 else 0) := by
  unfold bumpCount
  by_cases h : k = k2
  · subst h
    rw [dictGet_dictSet_self]
    simp
  · rw [dictGet_dictSet_ne _ _ h]
    simp [h]

theorem buildCounts_lookup {α : Type} (keyOf : α → String) (l : List α) (k : String) :
    (dictGet (buildCounts keyOf l) k).getD 0 = l.countP (fun x => decide (keyOf x = k)) := by
  suffices h : ∀ (counts : List (String × Nat)),
      (dictGet (l.foldl (fun c x => bumpCount c (keyOf x)) counts) k).getD 0 =
        (dictGet counts k).getD 0 + l.countP (fun x => decide (keyOf x = k)) by
    have := h []
    simpa [buildCounts, dictGet] using this
  induction l with
  | nil => intro counts; simp [dictGet]
  | cons x xs ih =>
    intro counts
    rw [List.foldl_cons, ih, bumpCount_lookup, List.countP_cons]
    by_cases h : keyOf x = k
    · simp [h]
      omega
    · simp [h]

theorem addToGroup_forall {α : Type} {P : α → Prop} :
    ∀ {gs : List (String × List α)} {k : String} {x : α},
    (∀ p ∈ gs, ∀ y ∈ p.2, P y) → P x →
    ∀ p ∈ addToGroup gs k x, ∀ y ∈ p.2, P y := by
  intro gs
  induction gs with
  | nil =>
    intro k x _ hx p hp y hy
    simp [addToGroup] at hp
    subst hp
    simp at hy
    subst hy
    exact hx
  | cons g rest ih =>
    intro k x hgs hx p hp y hy
    obtain ⟨k0, xs⟩ := g
    by_cases hk : k0 = k
    · rw [addToGroup, if_pos hk] at hp
      rcases List.mem_cons.mp hp with rfl | hp
      · rcases List.mem_append.mp hy with hy | hy
        · exact hgs (k0, xs) (List.mem_cons_self _ _) y hy
        · simp at hy
          subst hy
          exact hx
      · exact hgs p (List.mem_cons_of_mem _ hp) y hy
    · rw [addToGroup, if_neg hk] at hp
      rcases List.mem_cons.mp hp with rfl | hp
      · exact hgs (k0, xs) (List.mem_cons_self _ _) y hy
      · exact ih (fun q hq => hgs q (List.mem_cons_of_mem _ hq)) hx p hp y hy

theorem groupByKey_forall {α : Type} (key : α → String) (P : α → Prop) :
    ∀ (l : List α), (∀ x ∈ l, P x) →
    ∀ p ∈ groupByKey key l, ∀ y ∈ p.2, P y := by
  intro l hl
  suffices h : ∀ (l2 : List α) (gs : List (String × List α)),
      (∀ p ∈ gs, ∀ y ∈ p.2, P y) → (∀ x ∈ l2, P x) →
      ∀ p ∈ l2.foldl (fun gs x => addToGroup gs (key x) x) gs, ∀ y ∈ p.2, P y by
    exact h l [] (by simp) hl
  intro l2
  induction l2 with
  | nil =>
    intro gs hgs _ p hp
    exact hgs p hp
  | cons x xs ih =>
    intro gs hgs hl2 p hp
    rw [List.foldl_cons] at hp
    exact ih (addToGroup gs (key x) x)
      (addToGroup_forall hgs (hl2 x (List.mem_cons_self _ _)))
      (fun z hz => hl2 z (List.mem_cons_of_mem _ hz)) p hp

theorem addToGroup_ne_nil {α : Type} :
    ∀ {gs : List (String × List α)} {k : String} {x : α},
    (∀ p ∈ gs, p.2 ≠ []) → ∀ p ∈ addToGroup gs k x, p.2 ≠ [] := by
  intro gs
  induction gs with
  | nil =>
    intro k x _ p hp
    simp [addToGroup] at hp
    subst hp
    simp
  | cons g rest ih =>
    intro k x hgs p hp
    obtain ⟨k0, xs⟩ := g
    by_cases hk : k0 = k
    · rw [addToGroup, if_pos hk] at hp
      rcases List.mem_cons.mp hp with rfl | hp
      · simp
      · exact hgs p (List.mem_cons_of_mem _ hp)
    · rw [addToGroup, if_neg hk] at hp
      rcases List.mem_cons.mp hp with rfl | hp
      · exact hgs (k0, xs) (List.mem_cons_self _ _)
      · exact ih (fun q hq => hgs q (List.mem_cons_of_mem _ hq)) p hp

theorem groupByKey_ne_nil {α : Type} (key : α → String) (l : List α) :
    ∀ p ∈ groupByKey key l, p.2 ≠ [] := by
  suffices h : ∀ (l2 : List α) (gs : List (String × List α)),
      (∀ p ∈ gs, p.2 ≠ []) →
      ∀ p ∈ l2.foldl (fun gs x => addToGroup gs (key x) x) gs, p.2 ≠ [] by
    exact h l [] (by simp)
  intro l2
  induction l2 with
  | nil =>
    intro gs hgs p hp
    exact hgs p hp
  | cons x xs ih =>
    intro gs hgs p hp
    rw [List.foldl_cons] at hp
    exact ih (addToGroup gs (key x) x) (addToGroup_ne_nil hgs) p hp

theorem foldl_min_mem : ∀ (ps : List Nat) (p : Nat), ps.foldl min p ∈ p :: ps := by
  intro ps
  induction ps with
  | nil => intro p; simp
  | cons q qs ih =>
    intro p
    rw [List.foldl_cons]
    rcases List.mem_cons.mp (ih (min p q)) with h | h
    · rcases Nat.le_total p q with hle | hle
      · rw [h, min_eq_left hle]; simp
      · rw [h, min_eq_right hle]; simp
    · simp [h]

theorem foldl_min_le : ∀ (ps : List Nat) (p q : Nat), q ∈ p :: ps → ps.foldl min p ≤ q := by
  intro ps
  induction ps with
  | nil =>
    intro p q hq
    simp at hq
    simp [hq]
  | cons r rs ih =>
    intro p q hq
    rw [List.foldl_cons]
    rcases List.mem_cons.mp hq with rfl | hq2
    · exact le_trans (ih (min q r) (min q r) (List.mem_cons_self _ _)) (min_le_left _ _)
    · rcases List.mem_cons.mp hq2 with rfl | hq3
      · exact le_trans (ih (min p q) (min p q) (List.mem_cons_self _ _)) (min_le_right _ _)
      · exact ih (min p r) q (List.mem_cons_of_mem _ hq3)

theorem dedupFirstBy_subset {α κ : Type} [DecidableEq κ] (key : α → κ) :
    ∀ {seen : List κ} {l : List α} {e : α}, e ∈ dedupFirstBy key seen l → e ∈ l := by
  intro seen l
  induction l generalizing seen with
  | nil => intro e he; simp [dedupFirstBy] at he
  | cons a as ih =>
    intro e he
    by_cases ha : key a ∈ seen
    · rw [dedupFirstBy, if_pos ha] at he
      exact List.mem_cons_of_mem _ (ih he)
    · rw [dedupFirstBy, if_neg ha] at he
      rcases List.mem_cons.mp he with rfl | he
      · exact List.mem_cons_self _ _
      · exact List.mem_cons_of_mem _ (ih he)

theorem aggregateErrors_subset {errors : List Err} {e : Err}
    (he : e ∈ aggregateErrors errors) : e ∈ errors :=
  dedupFirstBy_subset errDedupKey ((pySortByKey_perm errSortKey _).mem_iff.mp he)

theorem sevPrio_ne_one_of_prio {p : Nat} (h : p ≠ 1) : priorityName p ≠ "critical" := by
  match p with
  | 0 => decide
  | 1 => exact absurd rfl h
  | 2 => decide
  | 3 => decide
  | 4 => decide
  | 5 => decide
  | n + 6 => simp [priorityName]

theorem getHighestSeverity_ne_critical {sevs : List String}
    (h : ∀ s ∈ sevs, sevPrio s ≠ 1) : getHighestSeverity sevs ≠ "critical" := by
  unfold getHighestSeverity
  cases hm : sevs.map sevPrio with
  | nil => decide
  | cons p ps =>
    apply sevPrio_ne_one_of_prio
    have hmem : ps.foldl min p ∈ p :: ps := foldl_min_mem ps p
    rw [← hm] at hmem
    rw [List.mem_map] at hmem
    obtain ⟨s, hs, heq⟩ := hmem
    rw [← heq]
    exact h s hs

theorem aggregateObservations_not_critical {observations : List Obs}
    (h : ∀ o ∈ observations, sevPrio (obsSevRaw o) ≠ 1) :
    ∀ o ∈ aggregateObservations observations, obsSevRaw o ≠ "critical" := by
  intro o ho
  have hmem : o ∈ (groupByKey obsKey observations).map (fun g =>
      match g.2 with
      | [x] => x
      | l => mergeSimilarObservations l) :=
    (pySortByKey_perm obsSortKey _).mem_iff.mp ho
  rw [List.mem_map] at hmem
  obtain ⟨g, hg, heq⟩ := hmem
  have hsub : ∀ y ∈ g.2, sevPrio (obsSevRaw y) ≠ 1 :=
    groupByKey_forall obsKey (fun y => sevPrio (obsSevRaw y) ≠ 1) observations h g hg
  have hne : g.2 ≠ [] := groupByKey_ne_nil obsKey observations g hg
  match hg2 : g.2 with
  | [] => exact absurd hg2 hne
  | [x] =>
    have heq2 : x = o := by rw [hg2] at heq; exact heq
    intro hcontra
    apply hsub x (by rw [hg2]; exact List.mem_cons_self _ _)
    rw [heq2, hcontra]
    decide
  | x :: y :: t =>
    have heq2 : mergeSimilarObservations (x :: y :: t) = o := by rw [hg2] at heq; exact heq
    have hform : obsSevRaw (mergeSimilarObservations (x :: y :: t)) =
        getHighestSeverity ((x :: y :: t).map (fun q => q.severity.getD "info")) := rfl
    rw [← heq2, hform]
    apply getHighestSeverity_ne_critical
    intro s hs
    rw [List.mem_map] at hs
    obtain ⟨q, hq, heq3⟩ := hs
    rw [← heq3]
    exact hsub q (by rw [hg2]; exact hq)

/-! ## Claim C2: the summary quality score -/

theorem calcStats_total_errors (o : List Obs) (e : List Err) (s : List Sug) :
    (calculateSummaryStats o e s).total_errors = e.length := rfl

theorem calcStats_total_observations (o : List Obs) (e : List Err) (s : List Sug) :
    (calculateSummaryStats o e s).total_observations = o.length := rfl

theorem calcStats_critical (o : List Obs) (e : List Err) (s : List Sug) :
    (calculateSummaryStats o e s).critical_issues =
      e.countP (fun x => decide (errSevRaw x = "critical")) +
      o.countP (fun x => decide (obsSevRaw x = "critical")) := by
  show (dictGet (buildCounts errSevRaw e) "critical").getD 0 +
      (dictGet (buildCounts obsSevRaw o) "critical").getD 0 = _
  rw [buildCounts_lookup, buildCounts_lookup]

theorem calcStats_quality (o : List Obs) (e : List Err) (s : List Sug) :
    (calculateSummaryStats o e s).quality_score =
      min 100 (max 0 (100 - 2 * ((e.length : Int) + (o.length : Int))
        - 10 * ((calculateSummaryStats o e s).critical_issues : Int))) := by
  show min 100 (max 0 (max 0 (100 - ((e.length : Int) + (o.length : Int)) * 2
      - ((calculateSummaryStats o e s).critical_issues : Int) * 10))) = _
  have h : (100 - ((e.length : Int) + (o.length : Int)) * 2
      - ((calculateSummaryStats o e s).critical_issues : Int) * 10) =
      (100 - 2 * ((e.length : Int) + (o.length : Int))
      - 10 * ((calculateSummaryStats o e s).critical_issues : Int)) := by ring
  rw [h, ← max_assoc, max_self]

/-- Claim C2: for a non-empty input map the aggregated summary satisfies
quality_score = clamp(0, 100, 100 - 2*(|errors| + |observations|) -
10*criticalBucket), where the counts are those of the aggregated report
collections; when no input entry of a completed result carries a
critical-priority severity, the critical term vanishes and the score is
100 - 2*(|errors| + |observations|) floored at 0 (the cap at 100 is then
vacuous). -/
theorem aggregate_summary_quality_score (results : List (String × AnalysisResult))
    (now : String) (hne : results ≠ []) :
    ∃ (s : SummaryStats) (errs : List Err),
      (aggregateResults results now).summary = some s ∧
      (aggregateResults results now).errors = ErrField.flat errs ∧
      s.total_errors = errs.length ∧
      s.total_observations = (aggregateResults results now).observations.length ∧
      s.critical_issues =
        errs.countP (fun x => decide (errSevRaw x = "critical")) +
          (aggregateResults results now).observations.countP
            (fun x => decide (obsSevRaw x = "critical")) ∧
      s.quality_score = min 100 (max 0
        (100 - 2 * ((s.total_errors : Int) + (s.total_observations : Int))
          - 10 * (s.critical_issues : Int))) ∧
      ((∀ p ∈ results, p.2.status = TaskStatus.completed →
          (∀ e ∈ p.2.errors, sevPrio (errSevRaw e) ≠ 1) ∧
          (∀ o ∈ p.2.observations, sevPrio (obsSevRaw o) ≠ 1)) →
        s.critical_issues = 0 ∧
        s.quality_score = max 0
          (100 - 2 * ((s.total_errors : Int) + (s.total_observations : Int)))) := by
  simp only [aggregateResults, if_neg hne]
  refine ⟨_, _, rfl, rfl, calcStats_total_errors _ _ _, ?_, ?_, ?_, ?_⟩
  · rw [calcStats_total_observations]
  · rw [calcStats_critical]
  · rw [calcStats_quality, calcStats_total_errors, calcStats_total_observations]
  · intro hin
    have hcrit0 : (calculateSummaryStats
        (aggregateObservations (((results.filter
          (fun p => p.2.status = TaskStatus.completed)).map
            (fun p => p.2.observations)).flatten))
        (aggregateErrors (((results.filter
          (fun p => p.2.status = TaskStatus.completed)).map
            (fun p => p.2.errors)).flatten))
        (aggregateSuggestions (((results.filter
          (fun p => p.2.status = TaskStatus.completed)).map
            (fun p => p.2.suggestions)).flatten))).critical_issues = 0 := by
      rw [calcStats_critical]
      have hprop : ∀ q ∈ (results.filter
          (fun p => p.2.status = TaskStatus.completed)), q.2.status = TaskStatus.completed ∧
          (∀ e ∈ q.2.errors, sevPrio (errSevRaw e) ≠ 1) ∧
          (∀ o ∈ q.2.observations, sevPrio (obsSevRaw o) ≠ 1) := by
        intro q hq
        rw [List.mem_filter] at hq
        have hst := of_decide_eq_true hq.2
        exact ⟨hst, (hin q hq.1 hst).1, (hin q hq.1 hst).2⟩
      have he0 : (aggregateErrors (((results.filter
          (fun p => p.2.status = TaskStatus.completed)).map
            (fun p => p.2.errors)).flatten)).countP
          (fun x => decide (errSevRaw x = "critical")) = 0 := by
        rw [List.countP_eq_zero]
        intro e he
        have he2 := aggregateErrors_subset he
        rw [List.mem_flatten] at he2
        obtain ⟨lst, hlst, hmem⟩ := he2
        rw [List.mem_map] at hlst
        obtain ⟨q, hq, rfl⟩ := hlst
        have := (hprop q hq).2.1 e hmem
        simp only [decide_eq_true_eq]
        intro hcontra
        exact this (by rw [hcontra]; decide)
      have ho0 : (aggregateObservations (((results.filter
          (fun p => p.2.status = TaskStatus.completed)).map
            (fun p => p.2.observations)).flatten)).countP
          (fun x => decide (obsSevRaw x = "critical")) = 0 := by
        rw [List.countP_eq_zero]
        intro o ho
        have hall : ∀ x ∈ ((results.filter
            (fun p => p.2.status = TaskStatus.completed)).map
              (fun p => p.2.observations)).flatten, sevPrio (obsSevRaw x) ≠ 1 := by
          intro x hx
          rw [List.mem_flatten] at hx
          obtain ⟨lst, hlst, hmem⟩ := hx
          rw [List.mem_map] at hlst
          obtain ⟨q, hq, rfl⟩ := hlst
          exact (hprop q hq).2.2 x hmem
        have := aggregateObservations_not_critical hall o ho
        simp only [decide_eq_true_eq]
        exact this
      rw [he0, ho0]
    refine ⟨hcrit0, ?_⟩
    rw [calcStats_quality, calcStats_total_errors, calcStats_total_observations, hcrit0]
    have hle : (100 : Int) - 2 * (((aggregateErrors (((results.filter
        (fun p => p.2.status = TaskStatus.completed)).map
          (fun p => p.2.errors)).flatten)).length : Int) +
        ((aggregateObservations (((results.filter
        (fun p => p.2.status = TaskStatus.completed)).map
          (fun p => p.2.observations)).flatten)).length : Int)) ≤ 100 := by
      have h1 : (0 : Int) ≤ ((aggregateErrors (((results.filter
          (fun p => p.2.status = TaskStatus.completed)).map
            (fun p => p.2.errors)).flatten)).length : Int) := Int.ofNat_nonneg _
      have h2 : (0 : Int) ≤ ((aggregateObservations (((results.filter
          (fun p => p.2.status = TaskStatus.completed)).map
            (fun p => p.2.observations)).flatten)).length : Int) := Int.ofNat_nonneg _
      omega
    simp only [Nat.cast_zero, mul_zero, sub_zero]
    omega

/-- Closed instance of the C2 theorem on a one-result map without critical
severities. -/
theorem aggregate_summary_quality_score_witness :
    ∃ (s : SummaryStats) (errs : List Err),
      (aggregateResults demoResults "t").summary = some s ∧
      (aggregateResults demoResults "t").errors = ErrField.flat errs ∧
      s.critical_issues = 0 ∧
      s.quality_score = max 0
        (100 - 2 * ((s.total_errors : Int) + (s.total_observations : Int))) := by
  obtain ⟨s, errs, h1, h2, h3, h4, h5, h6, h7⟩ :=
    aggregate_summary_quality_score demoResults "t" (by decide)
  have h8 := h7 (by decide)
  exact ⟨s, errs, h1, h2, h8.1, h8.2⟩

/-! ## Claim C3: merging equal-key observations -/

theorem priorityName_sevPrio {s : String} (h : s ∈ canonicalSeverities) :
    priorityName (sevPrio s) = s := by
  fin_cases h <;> decide

theorem getHighestSeverity_spec (sevs : List String)
    (hcanon : ∀ s ∈ sevs, s ∈ canonicalSeverities) (hne : sevs ≠ []) :
    getHighestSeverity sevs ∈ sevs ∧
    ∀ s ∈ sevs, sevPrio (getHighestSeverity sevs) ≤ sevPrio s := by
  unfold getHighestSeverity
  cases hm : sevs.map sevPrio with
  | nil =>
    rw [List.map_eq_nil_iff] at hm
    exact absurd hm hne
  | cons p ps =>
    have hmem : ps.foldl min p ∈ p :: ps := foldl_min_mem ps p
    rw [← hm] at hmem
    rw [List.mem_map] at hmem
    obtain ⟨sm, hsm, heq⟩ := hmem
    have hname : priorityName (ps.foldl min p) = sm := by
      rw [← heq]
      exact priorityName_sevPrio (hcanon sm hsm)
    constructor
    · show priorityName (ps.foldl min p) ∈ sevs
      rw [hname]
      exact hsm
    · intro s hs
      show sevPrio (priorityName (ps.foldl min p)) ≤ sevPrio s
      rw [hname, heq]
      apply foldl_min_le
      rw [← hm]
      exact List.mem_map.mpr ⟨s, hs, rfl⟩

/-- Claim C3 amended: three observations sharing the same type and line
number, one per completed result, merge into exactly one observation whose
count is 3, whose message joins the set-union of the member messages with
a pipe separator, whose severity is the most severe member severity, and
whose sources list holds each member observation own agent_id field; it
therefore contains the three worker ids exactly when each observation
carries the id of its producing worker, as here. -/
theorem observation_merge (w1 w2 w3 t : String) (ln : Option Int)
    (m1 m2 m3 s1 s2 s3 a1 a2 a3 now : String)
    (hm1 : m1 ≠ "") (hm2 : m2 ≠ "") (hm3 : m3 ≠ "")
    (hs1 : s1 ∈ canonicalSeverities) (hs2 : s2 ∈ canonicalSeverities)
    (hs3 : s3 ∈ canonicalSeverities) :
    (aggregateResults
      [(w1, oneObsResult w1 "task-1" (mkObs t ln m1 s1 a1)),
       (w2, oneObsResult w2 "task-2" (mkObs t ln m2 s2 a2)),
       (w3, oneObsResult w3 "task-3" (mkObs t ln m3 s3 a3))] now).observations =
      [{ mkObs t ln m1 s1 a1 with
          message := some (joinSep " | " (pyDedup [m1, m2, m3]))
          severity := some (getHighestSeverity [s1, s2, s3])
          count := some 3
          sources := some [a1, a2, a3] }] ∧
    getHighestSeverity [s1, s2, s3] ∈ [s1, s2, s3] ∧
    (∀ s ∈ [s1, s2, s3], sevPrio (getHighestSeverity [s1, s2, s3]) ≤ sevPrio s) := by
  have hcanon : ∀ s ∈ [s1, s2, s3], s ∈ canonicalSeverities := by
    intro s hs
    rcases List.mem_cons.mp hs with rfl | hs
    · exact hs1
    rcases List.mem_cons.mp hs with rfl | hs
    · exact hs2
    rcases List.mem_cons.mp hs with rfl | hs
    · exact hs3
    · simp at hs
  refine ⟨?_, (getHighestSeverity_spec [s1, s2, s3] hcanon (by simp)).1,
    (getHighestSeverity_spec [s1, s2, s3] hcanon (by simp)).2⟩
  simp only [aggregateResults, oneObsResult, mkObs]
  simp [aggregateObservations, groupByKey, addToGroup, obsKey,
    mergeSimilarObservations, pySortByKey, List.insertionSort, List.orderedInsert,
    joinSep, hm1, hm2, hm3, getHighestSeverity]

/-- Counterexample to claim C3 as stated: the in-repo workers do not stamp
agent_id into their observation dicts, and for such observations the merged
sources list is three copies of "unknown", which does not contain any of
the three contributing worker ids. -/
theorem observation_merge_sources_counterexample :
    ∃ merged, (aggregateResults
      [("syntax-001", oneObsResult "syntax-001" "task-1"
          (plainObs "unused_variable" 7 "x is unused" "warning")),
       ("security-001", oneObsResult "security-001" "task-2"
          (plainObs "unused_variable" 7 "y is unused" "warning")),
       ("doc-001", oneObsResult "doc-001" "task-3"
          (plainObs "unused_variable" 7 "z is unused" "warning"))] "t").observations =
        [merged] ∧
      merged.count = some 3 ∧
      merged.sources = some ["unknown", "unknown", "unknown"] ∧
      "syntax-001" ∉ (["unknown", "unknown", "unknown"] : List String) ∧
      "security-001" ∉ (["unknown", "unknown", "unknown"] : List String) ∧
      "doc-001" ∉ (["unknown", "unknown", "unknown"] : List String) := by
  refine ⟨_, rfl, rfl, rfl, by decide, by decide, by decide⟩

/-- Closed instance of the amended C3 theorem with worker ids stamped into
the observations. -/
theorem observation_merge_witness :
    (aggregateResults
      [("syntax-001", oneObsResult "syntax-001" "task-1"
          (mkObs "unused_variable" (some 7) "x unused" "warning" "syntax-001")),
       ("security-001", oneObsResult "security-001" "task-2"
          (mkObs "unused_variable" (some 7) "y unused" "error" "security-001")),
       ("doc-001", oneObsResult "doc-001" "task-3"
          (mkObs "unused_variable" (some 7) "z unused" "info" "doc-001"))] "t").observations =
      [{ mkObs "unused_variable" (some 7) "x unused" "warning" "syntax-001" with
          message := some (joinSep " | " (pyDedup ["x unused", "y unused", "z unused"]))
          severity := some (getHighestSeverity ["warning", "error", "info"])
          count := some 3
          sources := some ["syntax-001", "security-001", "doc-001"] }] :=
  (observation_merge "syntax-001" "security-001" "doc-001" "unused_variable" (some 7)
    "x unused" "y unused" "z unused" "warning" "error" "info"
    "syntax-001" "security-001" "doc-001" "t"
    (by decide) (by decide) (by decide) (by decide) (by decide) (by decide)).1

/-! ## Orchestration characterization lemmas (claims C5 and C8) -/

theorem handleCritical_suggestions (r : Report) :
    (handleCriticalErrors r).suggestions = r.suggestions := by
  unfold handleCriticalErrors
  cases r.errors <;> rfl

theorem handleCritical_split (r : Report) {c n : List Err}
    (herr : r.errors = ErrField.split c n) : handleCriticalErrors r = r := by
  unfold handleCriticalErrors
  rw [herr]

theorem prioritize_suggestions_of_fail {r : Report}
    (h : sortSuggestionsDesc r.suggestions = .error ()) :
    (prioritizeResults r).suggestions = r.suggestions := by
  unfold prioritizeResults
  rw [h]

theorem prioritize_split_nil (r : Report) (herr : r.errors = ErrField.split [] []) :
    prioritizeResults r =
      (match sortSuggestionsDesc r.suggestions with
       | .ok ss => { r with suggestions := ss }
       | .error _ => r) := by
  unfold prioritizeResults
  rw [herr]
  cases hs : sortSuggestionsDesc r.suggestions with
  | ok ss =>
    simp only [pySortByKey, List.insertionSort]
    try rw [← herr]
  | error e =>
    simp only [pySortByKey, List.insertionSort]
    try rw [← herr]

theorem calcQS_clean (r : Report) (herr : r.errors = ErrField.split [] [])
    (hobs : r.observations = []) :
    calculateQualityScores r = { r with quality_scores := some cleanQS } := by
  unfold calculateQualityScores
  rw [herr, hobs]
  simp only [calculateSyntaxScore, calculateSecurityScore, calculatePerformanceScore,
    calculateDocumentationScore, calculateTestScore, ErrField.allErrors]
  have hf : Int.floor ((20001 : Rat) / 2) = 10000 := by
    rw [Int.floor_eq_iff]
    norm_num
  norm_num [cleanQS, round2, hf]

theorem genRecs_clean (r : Report) (hqs : r.quality_scores = some cleanQS) :
    generateRecommendations r = { r with recommendations := some [] } := by
  unfold generateRecommendations qsGet
  rw [hqs]
  norm_num [cleanQS]

theorem list_all_perm {α : Type} {l1 l2 : List α} (h : List.Perm l1 l2) (p : α → Bool) :
    l1.all p = l2.all p := by
  by_cases h1 : l1.all p = true
  · rw [h1]
    symm
    rw [List.all_eq_true]
    intro x hx
    exact (List.all_eq_true.mp h1) x (h.mem_iff.mpr hx)
  · have h2 : ¬ l2.all p = true := by
      intro h2
      apply h1
      rw [List.all_eq_true]
      intro x hx
      exact (List.all_eq_true.mp h2) x (h.mem_iff.mp hx)
    rw [Bool.not_eq_true] at h1 h2
    rw [h1, h2]

theorem prioComparable_perm {l1 l2 : List Sug} (h : List.Perm l1 l2) :
    prioComparable l1 = prioComparable l2 := by
  unfold prioComparable
  rw [list_all_perm h, list_all_perm h]

theorem sortSuggestionsDesc_idem {l ss : List Sug}
    (h : sortSuggestionsDesc l = .ok ss) : sortSuggestionsDesc ss = .ok ss := by
  unfold sortSuggestionsDesc at h ⊢
  by_cases hc : prioComparable l = true
  · rw [if_pos hc] at h
    have hss : ss = pySortByKeyRev sugFullKey l := by
      injection h with h2
      exact h2.symm
    have hc2 : prioComparable ss = true := by
      rw [hss, prioComparable_perm (pySortByKeyRev_perm sugFullKey l)]
      exact hc
    rw [if_pos hc2, hss]
    have hsorted : (pySortByKeyRev sugFullKey l).Sorted (keyGE sugFullKey) :=
      pySortByKeyRev_sorted sugFullKey l
    show Except.ok (List.insertionSort _ _) = _
    rw [hsorted.insertionSort_eq]
  · rw [if_neg hc] at h
    exact absurd h (by simp)

/-! ## Claim C5: apply_orchestration_rules never throws -/

/-- Claim C5 amended: apply_orchestration_rules is total and always returns
a report stamped with the orchestration metadata; a failure inside an
internal step is caught within that step, which leaves that transformation
unapplied (here: a suggestion sort that raises leaves the suggestions
untouched) while the remaining steps and the stamp still run, so the
returned report is generally not the unmodified input.  The input is
returned unchanged only when a failure escapes the per-step handlers,
which cannot happen for a well-formed report. -/
theorem apply_orchestration_total (r : Report) (analysis_id now : String) :
    (applyOrchestrationRules r analysis_id now).orchestration =
      some { analysis_id := analysis_id, execution_strategy := "parallel"
             processed_at := now, rules_applied := rulesAppliedList } ∧
    (sortSuggestionsDesc r.suggestions = .error () →
      (applyOrchestrationRules r analysis_id now).suggestions = r.suggestions) := by
  constructor
  · rfl
  · intro hfail
    calc (applyOrchestrationRules r analysis_id now).suggestions
        = (prioritizeResults (handleCriticalErrors r)).suggestions := rfl
      _ = (handleCriticalErrors r).suggestions := by
          apply prioritize_suggestions_of_fail
          rw [handleCritical_suggestions]
          exact hfail
      _ = r.suggestions := handleCritical_suggestions r

/-- Counterexample to claim C5 as stated: on a report whose suggestion
priorities mix an int and a str, the suggestion sort of the prioritization
step raises, yet the returned report is not the unmodified input: it has
been processed and stamped. -/
theorem apply_orchestration_counterexample :
    sortSuggestionsDesc mixedSugReport.suggestions = .error () ∧
    applyOrchestrationRules mixedSugReport "aid" "t" ≠ mixedSugReport := by
  constructor
  · rfl
  · intro h
    have h2 : (applyOrchestrationRules mixedSugReport "aid" "t").orchestration =
        some { analysis_id := "aid", execution_strategy := "parallel"
               processed_at := "t", rules_applied := rulesAppliedList } := rfl
    rw [h] at h2
    exact absurd h2 (by decide)

/-- Closed instance of the amended C5 theorem on the mixed-priority
report. -/
theorem apply_orchestration_total_witness :
    (applyOrchestrationRules mixedSugReport "aid" "t").orchestration =
      some { analysis_id := "aid", execution_strategy := "parallel"
             processed_at := "t", rules_applied := rulesAppliedList } ∧
    (applyOrchestrationRules mixedSugReport "aid" "t").suggestions =
      mixedSugReport.suggestions :=
  ⟨(apply_orchestration_total mixedSugReport "aid" "t").1,
   (apply_orchestration_total mixedSugReport "aid" "t").2 rfl⟩

/-! ## Claim C8: orchestration idempotence on clean reports -/

theorem apply_clean_spec (r : Report) (aid t : String)
    (herr : r.errors = ErrField.flat []) (hobs : r.observations = []) :
    applyOrchestrationRules r aid t =
      { (match sortSuggestionsDesc r.suggestions with
         | .ok ss => { r with suggestions := ss }
         | .error _ => r) with
        errors := ErrField.split [] []
        critical_error_summary := some
          { count := 0, types := [], requires_immediate_attention := false }
        quality_scores := some cleanQS
        recommendations := some []
        orchestration := some (mkStamp aid t) } := by
  have h1 : handleCriticalErrors r =
      { r with
        errors := ErrField.split [] []
        critical_error_summary := some
          { count := 0, types := [], requires_immediate_attention := false } } := by
    unfold handleCriticalErrors
    rw [herr]
    simp [pyDedup]
  unfold applyOrchestrationRules
  rw [h1, prioritize_split_nil _ rfl]
  cases hsort : sortSuggestionsDesc r.suggestions with
  | ok ss =>
    simp only [calcQS_clean, genRecs_clean, hobs, mkStamp]
  | error e =>
    simp only [calcQS_clean, genRecs_clean, hobs, mkStamp]

theorem apply_split_clean_spec (r : Report) (aid t : String)
    (herr : r.errors = ErrField.split [] []) (hobs : r.observations = []) :
    applyOrchestrationRules r aid t =
      { (match sortSuggestionsDesc r.suggestions with
         | .ok ss => { r with suggestions := ss }
         | .error _ => r) with
        errors := ErrField.split [] []
        quality_scores := some cleanQS
        recommendations := some []
        orchestration := some (mkStamp aid t) } := by
  unfold applyOrchestrationRules
  rw [handleCritical_split r herr, prioritize_split_nil r herr]
  cases hsort : sortSuggestionsDesc r.suggestions with
  | ok ss =>
    simp only [calcQS_clean, genRecs_clean, hobs, herr, mkStamp]
  | error e =>
    simp only [calcQS_clean, genRecs_clean, hobs, herr, mkStamp]

/-- Claim C8: on a report with no errors and no observations, applying
orchestration twice changes nothing the second time except the
orchestration stamp; in particular the quality scores coincide and the
recommendation list is empty both times. -/
theorem orchestration_idempotent_on_clean (r : Report) (id1 t1 id2 t2 : String)
    (herr : r.errors = ErrField.flat []) (hobs : r.observations = []) :
    applyOrchestrationRules (applyOrchestrationRules r id1 t1) id2 t2 =
      { applyOrchestrationRules r id1 t1 with orchestration := some (mkStamp id2 t2) } ∧
    (applyOrchestrationRules r id1 t1).quality_scores =
      (applyOrchestrationRules (applyOrchestrationRules r id1 t1) id2 t2).quality_scores ∧
    (applyOrchestrationRules r id1 t1).recommendations = some [] ∧
    (applyOrchestrationRules (applyOrchestrationRules r id1 t1) id2 t2).recommendations
      = some [] := by
  have h1 := apply_clean_spec r id1 t1 herr hobs
  have herr1 : (applyOrchestrationRules r id1 t1).errors = ErrField.split [] [] := by
    rw [h1]
  have hobs1 : (applyOrchestrationRules r id1 t1).observations = [] := by
    rw [h1]
    cases hsort : sortSuggestionsDesc r.suggestions with
    | ok ss => exact hobs
    | error e => exact hobs
  have hqs1 : (applyOrchestrationRules r id1 t1).quality_scores = some cleanQS := by
    rw [h1]
  have hrecs1 : (applyOrchestrationRules r id1 t1).recommendations = some [] := by
    rw [h1]
  have hpr : prioritizeResults (applyOrchestrationRules r id1 t1) =
      applyOrchestrationRules r id1 t1 := by
    rw [prioritize_split_nil _ herr1]
    cases hsort : sortSuggestionsDesc r.suggestions with
    | ok ss =>
      have hsug1 : (applyOrchestrationRules r id1 t1).suggestions = ss := by
        rw [h1, hsort]
      have hidem := sortSuggestionsDesc_idem hsort
      rw [hsug1, hidem]
      dsimp only
      rw [← hsug1]
    | error e =>
      have hsug1 : (applyOrchestrationRules r id1 t1).suggestions = r.suggestions := by
        rw [h1, hsort]
      rw [hsug1, hsort]
  have h2 := apply_split_clean_spec (applyOrchestrationRules r id1 t1) id2 t2 herr1 hobs1
  have hbase : (match sortSuggestionsDesc (applyOrchestrationRules r id1 t1).suggestions with
      | .ok ss => { applyOrchestrationRules r id1 t1 with suggestions := ss }
      | .error _ => applyOrchestrationRules r id1 t1) =
      applyOrchestrationRules r id1 t1 := by
    have := hpr
    rw [prioritize_split_nil _ herr1] at this
    exact this
  rw [hbase] at h2
  have hmain : applyOrchestrationRules (applyOrchestrationRules r id1 t1) id2 t2 =
      { applyOrchestrationRules r id1 t1 with orchestration := some (mkStamp id2 t2) } := by
    rw [h2, ← herr1, ← hqs1, ← hrecs1]
  refine ⟨hmain, ?_, hrecs1, ?_⟩
  · rw [hmain, hqs1]
  · rw [hmain, hrecs1]

/-- Closed instance of the C8 theorem on the empty aggregate report. -/
theorem orchestration_idempotent_on_clean_witness :
    applyOrchestrationRules (applyOrchestrationRules (emptyResult "t0") "a1" "t1") "a2" "t2" =
      { applyOrchestrationRules (emptyResult "t0") "a1" "t1" with
        orchestration := some (mkStamp "a2" "t2") } ∧
    (applyOrchestrationRules (emptyResult "t0") "a1" "t1").recommendations = some [] :=
  ⟨(orchestration_idempotent_on_clean (emptyResult "t0") "a1" "t1" "a2" "t2" rfl rfl).1,
   (orchestration_idempotent_on_clean (emptyResult "t0") "a1" "t1" "a2" "t2" rfl rfl).2.2.1⟩

end A2A
